import Mathlib

set_option maxRecDepth 8000
set_option linter.unnecessarySeqFocus false

/-!
Shallow embedding of the peer directory and connection accounting core of
src/communication/src/network/peer_info_database.rs.

Modelling conventions:
  - `UTime` (milliseconds since the epoch) is `Nat`; `saturating_sub` is `Nat` subtraction.
  - `IpAddr` is modelled as an IPv4 address (four octets); all concrete addresses in the
    repository's scenarios are IPv4.  `IpAddr.is_global` follows the Rust standard library's
    nightly `Ipv4Addr::is_global` of the era of this code (library code, not repository code).
  - The `HashMap<IpAddr, PeerInfo>` directory is modelled as a `List PeerInfo` keyed by the
    `ip` field (a directory has pairwise distinct keys; list order stands for the map's
    iteration order).  `HashMap::extend` over key-disjoint lists is list append.
  - The persistence machinery (`saver_join_handle`, `saver_watch_tx`, `dump_peers`) is not
    state of the accounting core.  `request_dump` sends on a `watch` channel whose receiver
    is owned by the saver task, which only terminates once the sender is dropped in `stop`;
    while the database is alive the send cannot fail, so `request_dump` is modelled as a
    no-op that always succeeds.
  - `UTime::now()` is fallible; every operation that reads the clock takes a `nowq : Option Nat`
    (`none` = the clock read fails) and consults it exactly where the source calls
    `UTime::now()?`.  Mutations performed before that point survive the early error return,
    exactly as the partially mutated `&mut self` does in the source.
  - Each operation returns `(result, state)`: the `Except` result of the Rust function and
    the (possibly partially mutated) database.
-/

structure IpAddr where
  a : Nat
  b : Nat
  c : Nat
  d : Nat
deriving DecidableEq, Repr

namespace IpAddr

def is_private (x : IpAddr) : Bool :=
  x.a == 10 || (x.a == 172 && decide (16 ≤ x.b) && decide (x.b ≤ 31)) || (x.a == 192 && x.b == 168)

def is_loopback (x : IpAddr) : Bool := x.a == 127

def is_link_local (x : IpAddr) : Bool := x.a == 169 && x.b == 254

def is_broadcast (x : IpAddr) : Bool := x.a == 255 && x.b == 255 && x.c == 255 && x.d == 255

def is_documentation (x : IpAddr) : Bool :=
  (x.a == 192 && x.b == 0 && x.c == 2) || (x.a == 198 && x.b == 51 && x.c == 100) ||
    (x.a == 203 && x.b == 0 && x.c == 113)

def is_shared (x : IpAddr) : Bool := x.a == 100 && decide (64 ≤ x.b) && decide (x.b ≤ 127)

def is_ietf_protocol_assignment (x : IpAddr) : Bool := x.a == 192 && x.b == 0 && x.c == 0

def is_reserved (x : IpAddr) : Bool := decide (240 ≤ x.a) && !x.is_broadcast

def is_benchmarking (x : IpAddr) : Bool := x.a == 198 && (x.b == 18 || x.b == 19)

/-- `Ipv4Addr::is_global` (Rust std, nightly `ip` feature as used by this code). -/
def is_global (x : IpAddr) : Bool :=
  if x.a == 192 && x.b == 0 && x.c == 0 && (x.d == 9 || x.d == 10) then true
  else
    !x.is_private && !x.is_loopback && !x.is_link_local && !x.is_broadcast &&
      !x.is_documentation && !x.is_shared && !x.is_ietf_protocol_assignment &&
      !x.is_reserved && !x.is_benchmarking && x.a != 0

end IpAddr

/-- `PeerInfo` (peer_info_database.rs lines 14-29). -/
structure PeerInfo where
  ip : IpAddr
  banned : Bool
  bootstrap : Bool
  last_alive : Option Nat
  last_failure : Option Nat
  advertised : Bool
  active_out_connection_attempts : Nat
  active_out_connections : Nat
  active_in_connections : Nat
deriving DecidableEq, Repr

/-- `PeerInfo::is_active` (lines 35-39). -/
def PeerInfo.is_active (p : PeerInfo) : Bool :=
  decide (0 < p.active_out_connection_attempts) || decide (0 < p.active_out_connections) ||
    decide (0 < p.active_in_connections)

/-- The fields of `NetworkConfig` the accounting core reads (the file path, ports and dump
interval only feed the persistence machinery).  The field name
`max_out_connnection_attempts` preserves the source's spelling. -/
structure NetworkConfig where
  routable_ip : Option IpAddr
  wakeup_interval : Nat
  target_out_connections : Nat
  max_in_connections : Nat
  max_in_connections_per_ip : Nat
  max_out_connnection_attempts : Nat
  max_idle_peers : Nat
  max_banned_peers : Nat
  max_advertise_length : Nat
deriving DecidableEq, Repr

/-- `HashMap::get` / `get_mut` lookup: first record whose key matches. -/
def lookupPeer : List PeerInfo → IpAddr → Option PeerInfo
  | [], _ => none
  | p :: rest, ip => if p.ip = ip then some p else lookupPeer rest ip

/-- In-place mutation through `get_mut`: rewrite the (unique) record with the given key. -/
def updatePeer : List PeerInfo → IpAddr → (PeerInfo → PeerInfo) → List PeerInfo
  | [], _, _ => []
  | p :: rest, ip, f => if p.ip = ip then f p :: rest else p :: updatePeer rest ip f

/-- Strict order on `Option UTime` as derived by Rust (`None < Some`). -/
def optNatLt : Option Nat → Option Nat → Bool
  | none, none => false
  | none, some _ => true
  | some _, none => false
  | some x, some y => decide (x < y)

/-- Non-strict order on `Option UTime` as derived by Rust (`None < Some`). -/
def optNatLe : Option Nat → Option Nat → Bool
  | none, _ => true
  | some _, none => false
  | some x, some y => decide (x ≤ y)

/-- Sort key `(Reverse(last_alive), last_failure)` (cleanup idle peers, line 161, and
`get_advertisable_peer_ips`, line 326). -/
def idleLe (p q : PeerInfo) : Bool :=
  optNatLt q.last_alive p.last_alive ||
    (decide (q.last_alive = p.last_alive) && optNatLe p.last_failure q.last_failure)

/-- Sort key `(Reverse(last_failure), last_alive)` (cleanup banned peers, line 165). -/
def bannedLe (p q : PeerInfo) : Bool :=
  optNatLt q.last_failure p.last_failure ||
    (decide (q.last_failure = p.last_failure) && optNatLe p.last_alive q.last_alive)

/-- Sort key `(last_failure, Reverse(last_alive))` (`get_out_connection_candidate_ips`,
line 306). -/
def candLe (p q : PeerInfo) : Bool :=
  optNatLt p.last_failure q.last_failure ||
    (decide (p.last_failure = q.last_failure) && optNatLe q.last_alive p.last_alive)

def insertPeer (le : PeerInfo → PeerInfo → Bool) (x : PeerInfo) : List PeerInfo → List PeerInfo
  | [] => [x]
  | y :: ys => if le x y then x :: y :: ys else y :: insertPeer le x ys

/-- Stable insertion sort.  `Vec::sort_by_key` is stable; `sort_unstable_by_key` may permute
equal keys, and every claim settled through this model only depends on positions whose keys
are pairwise distinct, where any correct sort agrees. -/
def sortPeers (le : PeerInfo → PeerInfo → Bool) : List PeerInfo → List PeerInfo
  | [] => []
  | x :: xs => insertPeer le x (sortPeers le xs)

/-- The key filter `cleanup_peers` applies while draining (lines 137-146): drop non-global
IPs and our own IP. -/
def key_ok (cfg : NetworkConfig) (p : PeerInfo) : Bool :=
  p.ip.is_global && decide (cfg.routable_ip ≠ some p.ip)

/-- The fresh record `cleanup_peers` materializes for a genuinely new advertised IP
(lines 113-123). -/
def new_cleanup_peer (ip : IpAddr) : PeerInfo :=
  { ip := ip, banned := false, bootstrap := false, last_alive := none, last_failure := none,
    advertised := true, active_out_connection_attempts := 0, active_out_connections := 0,
    active_in_connections := 0 }

/-- Side effect of the candidate filter on an already-known IP (line 97). -/
def mark_advertised (peers : List PeerInfo) (ip : IpAddr) : List PeerInfo :=
  updatePeer peers ip (fun p => { p with advertised := true })

/-- The lazy `.filter(..).take(max_advertise_length)` pipeline over the deduplicated new-IP
list (lines 90-124).  The budget is the remaining `take` count: once it reaches zero the
iterator stops pulling, so later known IPs are no longer marked advertised.  Returns the
directory (with advertised marks applied) and the fresh records, in list order. -/
def filter_take_new (cfg : NetworkConfig) :
    List IpAddr → Nat → List PeerInfo → List PeerInfo × List PeerInfo
  | _, 0, peers => (peers, [])
  | [], _ + 1, peers => (peers, [])
  | ip :: rest, k + 1, peers =>
    if (lookupPeer peers ip).isSome then
      filter_take_new cfg rest (k + 1) (mark_advertised peers ip)
    else if !ip.is_global then
      filter_take_new cfg rest (k + 1) peers
    else if cfg.routable_ip = some ip then
      filter_take_new cfg rest (k + 1) peers
    else
      let r := filter_take_new cfg rest k peers
      (r.1, new_cleanup_peer ip :: r.2)

/-- `itertools::unique`: keep the first occurrence of each IP (tracked via the list of
already-seen IPs). -/
def unique_ips_aux (seen : List IpAddr) : List IpAddr → List IpAddr
  | [] => []
  | ip :: rest =>
    if ip ∈ seen then unique_ips_aux seen rest
    else ip :: unique_ips_aux (ip :: seen) rest

def unique_ips (l : List IpAddr) : List IpAddr := unique_ips_aux [] l

/-- The drain/partition/sort/rebuild phase of `cleanup_peers` (lines 129-172).  The drain
loop pushes each record into exactly one of three buckets in iteration order, which is the
same as the three order-preserving filters below; `extend` of the key-disjoint buckets is
append. -/
def cleanup_core (cfg : NetworkConfig) (drained : List PeerInfo)
    (res_new_peers : List PeerInfo) : List PeerInfo :=
  let keep_peers := drained.filter (fun p => key_ok cfg p && (p.bootstrap || p.is_active))
  let banned_peers :=
    drained.filter (fun p => key_ok cfg p && !(p.bootstrap || p.is_active) && p.banned)
  let idle_peers := drained.filter (fun p =>
    key_ok cfg p && !(p.bootstrap || p.is_active) && !p.banned && p.advertised)
  let idle2 := (sortPeers idleLe (idle_peers ++ res_new_peers)).take cfg.max_idle_peers
  let banned2 := (sortPeers bannedLe banned_peers).take cfg.max_banned_peers
  keep_peers ++ banned2 ++ idle2

/-- `cleanup_peers` (lines 84-172). -/
def cleanup_peers (cfg : NetworkConfig) (peers : List PeerInfo)
    (opt_new_peers : Option (List IpAddr)) : List PeerInfo :=
  match opt_new_peers with
  | some new_peers =>
    let pr := filter_take_new cfg (unique_ips new_peers) cfg.max_advertise_length peers
    cleanup_core cfg pr.1 pr.2
  | none => cleanup_core cfg peers []

/-- The error taxonomy surfaced by the accounting operations
(`CommunicationError` / `NetworkConnectionErrorType`). -/
inductive CommError where
  | invalidIp (ip : IpAddr)
  | peerNotFound (ip : IpAddr)
  | tooManyAttempts (ip : IpAddr)
  | tooManyFailures (ip : IpAddr)
  | closeNoConnection (ip : IpAddr)
  | clockError
deriving DecidableEq, Repr

/-- `PeerInfoDatabase` (lines 42-51) without the saver task handle and channel, which carry
no accounting state. -/
structure PeerInfoDatabase where
  cfg : NetworkConfig
  peers : List PeerInfo
  active_out_connection_attempts : Nat
  active_out_connections : Nat
  active_in_connections : Nat
  wakeup_interval : Nat
deriving DecidableEq, Repr

/-- `get_available_out_connection_attempts` (lines 259-269); `Nat` subtraction saturates. -/
def get_available_out_connection_attempts (db : PeerInfoDatabase) : Nat :=
  min
    (db.cfg.target_out_connections - db.active_out_connection_attempts -
      db.active_out_connections)
    (db.cfg.max_out_connnection_attempts - db.active_out_connection_attempts)

/-- The filter of `get_out_connection_candidate_ips` (lines 287-303):
advertised, not banned, inactive, and dial-eligible at `now`. -/
def dial_candidate_filter (wakeup_interval : Nat) (now : Nat) (p : PeerInfo) : Bool :=
  p.advertised && !p.banned && !p.is_active &&
    (match p.last_failure with
     | none => true
     | some lf =>
       (match p.last_alive with
        | none => false
        | some la => decide (lf < la)) ||
         decide (0 < now - lf - wakeup_interval))

/-- `get_out_connection_candidate_ips` (lines 273-312).  The clock is read only after the
zero-slot early return, exactly as in the source. -/
def get_out_connection_candidate_ips (db : PeerInfoDatabase) (nowq : Option Nat) :
    Except CommError (List IpAddr) :=
  let available_slots := get_available_out_connection_attempts db
  if available_slots = 0 then .ok []
  else
    match nowq with
    | none => .error .clockError
    | some now =>
      .ok (((sortPeers candLe
        (db.peers.filter (dial_candidate_filter db.wakeup_interval now))).take
          available_slots).map (fun p => p.ip))

/-- `get_advertisable_peer_ips` (lines 319-337). -/
def get_advertisable_peer_ips (db : PeerInfoDatabase) : List IpAddr :=
  let sorted_ips := ((sortPeers idleLe
    (db.peers.filter (fun p => p.advertised && !p.banned))).take
      db.cfg.max_advertise_length).map (fun p => p.ip)
  match db.cfg.routable_ip with
  | none => sorted_ips
  | some our_ip => (our_ip :: sorted_ips).take db.cfg.max_advertise_length

/-- `new_out_connection_attempt` (lines 345-362). -/
def new_out_connection_attempt (db : PeerInfoDatabase) (ip : IpAddr) :
    Except CommError Unit × PeerInfoDatabase :=
  if !ip.is_global then (.error (.invalidIp ip), db)
  else if get_available_out_connection_attempts db = 0 then
    (.error (.tooManyAttempts ip), db)
  else
    match lookupPeer db.peers ip with
    | none => (.error (.peerNotFound ip), db)
    | some _ =>
      (.ok (),
        { db with
          peers := updatePeer db.peers ip (fun q =>
            { q with active_out_connection_attempts := q.active_out_connection_attempts + 1 }),
          active_out_connection_attempts := db.active_out_connection_attempts + 1 })

/-- `merge_candidate_peers` (lines 366-375). -/
def merge_candidate_peers (db : PeerInfoDatabase) (new_peers : List IpAddr) :
    Except CommError Unit × PeerInfoDatabase :=
  if new_peers.isEmpty then (.ok (), db)
  else (.ok (), { db with peers := cleanup_peers db.cfg db.peers (some new_peers) })

/-- `peer_alive` (lines 380-388). -/
def peer_alive (db : PeerInfoDatabase) (ip : IpAddr) (nowq : Option Nat) :
    Except CommError Unit × PeerInfoDatabase :=
  match lookupPeer db.peers ip with
  | none => (.error (.peerNotFound ip), db)
  | some _ =>
    match nowq with
    | none => (.error .clockError, db)
    | some now =>
      (.ok (),
        { db with peers := updatePeer db.peers ip (fun q => { q with last_alive := some now }) })

/-- `peer_failed` (lines 393-401). -/
def peer_failed (db : PeerInfoDatabase) (ip : IpAddr) (nowq : Option Nat) :
    Except CommError Unit × PeerInfoDatabase :=
  match lookupPeer db.peers ip with
  | none => (.error (.peerNotFound ip), db)
  | some _ =>
    match nowq with
    | none => (.error .clockError, db)
    | some now =>
      (.ok (),
        { db with peers := updatePeer db.peers ip (fun q => { q with last_failure := some now }) })

/-- `peer_banned` (lines 407-422). -/
def peer_banned (db : PeerInfoDatabase) (ip : IpAddr) (nowq : Option Nat) :
    Except CommError Unit × PeerInfoDatabase :=
  match lookupPeer db.peers ip with
  | none => (.error (.peerNotFound ip), db)
  | some p =>
    match nowq with
    | none => (.error .clockError, db)
    | some now =>
      if p.banned then
        (.ok (),
          { db with
            peers := updatePeer db.peers ip (fun q => { q with last_failure := some now }) })
      else
        let p2 := { p with last_failure := some now, banned := true }
        let peers2 := updatePeer db.peers ip (fun _ => p2)
        let peers3 :=
          if !p2.is_active && !p2.bootstrap then cleanup_peers db.cfg peers2 none else peers2
        (.ok (), { db with peers := peers3 })

/-- `out_connection_closed` (lines 433-459). -/
def out_connection_closed (db : PeerInfoDatabase) (ip : IpAddr) :
    Except CommError Unit × PeerInfoDatabase :=
  if db.active_out_connections = 0 then (.error (.closeNoConnection ip), db)
  else
    match lookupPeer db.peers ip with
    | none => (.error (.peerNotFound ip), db)
    | some p =>
      if p.active_out_connections = 0 then (.error (.closeNoConnection ip), db)
      else
        let p2 := { p with active_out_connections := p.active_out_connections - 1 }
        let peers2 := updatePeer db.peers ip (fun _ => p2)
        let peers3 :=
          if !p2.is_active && !p2.bootstrap then cleanup_peers db.cfg peers2 none else peers2
        (.ok (),
          { db with
            peers := peers3
            active_out_connections := db.active_out_connections - 1 })

/-- `in_connection_closed` (lines 470-496). -/
def in_connection_closed (db : PeerInfoDatabase) (ip : IpAddr) :
    Except CommError Unit × PeerInfoDatabase :=
  if db.active_in_connections = 0 then (.error (.closeNoConnection ip), db)
  else
    match lookupPeer db.peers ip with
    | none => (.error (.peerNotFound ip), db)
    | some p =>
      if p.active_in_connections = 0 then (.error (.closeNoConnection ip), db)
      else
        let p2 := { p with active_in_connections := p.active_in_connections - 1 }
        let peers2 := updatePeer db.peers ip (fun _ => p2)
        let peers3 :=
          if !p2.is_active && !p2.bootstrap then cleanup_peers db.cfg peers2 none else peers2
        (.ok (),
          { db with
            peers := peers3
            active_in_connections := db.active_in_connections - 1 })

/-- `try_out_connection_attempt_success` (lines 508-549).  The source decrements the
counters and sets `advertised` before testing `peer.banned`; since those writes do not
touch `banned`, testing `banned` first on the untouched record is the same function.  The
clock is read inside the banned branch, after the decrements, so a clock failure leaves the
decrements behind. -/
def try_out_connection_attempt_success (db : PeerInfoDatabase) (ip : IpAddr)
    (nowq : Option Nat) : Except CommError Bool × PeerInfoDatabase :=
  if db.active_out_connection_attempts = 0 then (.error (.tooManyAttempts ip), db)
  else if decide (db.cfg.target_out_connections ≤ db.active_out_connections) then
    (.ok false, db)
  else
    match lookupPeer db.peers ip with
    | none => (.error (.peerNotFound ip), db)
    | some p =>
      if p.active_out_connection_attempts = 0 then (.error (.tooManyAttempts ip), db)
      else if p.banned then
        match nowq with
        | none =>
          (.error .clockError,
            { db with
              peers := updatePeer db.peers ip (fun q =>
                { q with
                  active_out_connection_attempts := q.active_out_connection_attempts - 1,
                  advertised := true }),
              active_out_connection_attempts := db.active_out_connection_attempts - 1 })
        | some now =>
          let p2 := { p with
            active_out_connection_attempts := p.active_out_connection_attempts - 1,
            advertised := true, last_failure := some now }
          let peers2 := updatePeer db.peers ip (fun _ => p2)
          let peers3 :=
            if !p2.is_active && !p2.bootstrap then cleanup_peers db.cfg peers2 none else peers2
          (.ok false,
            { db with
              peers := peers3
              active_out_connection_attempts := db.active_out_connection_attempts - 1 })
      else
        (.ok true,
          { db with
            peers := updatePeer db.peers ip (fun q =>
              { q with
                active_out_connection_attempts := q.active_out_connection_attempts - 1,
                advertised := true,
                active_out_connections := q.active_out_connections + 1 }),
            active_out_connection_attempts := db.active_out_connection_attempts - 1,
            active_out_connections := db.active_out_connections + 1 })

/-- `out_connection_attempt_failed` (lines 559-583).  The clock is read after the
decrements (line 578), so a clock failure leaves the decrements behind. -/
def out_connection_attempt_failed (db : PeerInfoDatabase) (ip : IpAddr) (nowq : Option Nat) :
    Except CommError Unit × PeerInfoDatabase :=
  if db.active_out_connection_attempts = 0 then (.error (.tooManyFailures ip), db)
  else
    match lookupPeer db.peers ip with
    | none => (.error (.peerNotFound ip), db)
    | some p =>
      if p.active_out_connection_attempts = 0 then (.error (.tooManyFailures ip), db)
      else
        match nowq with
        | none =>
          (.error .clockError,
            { db with
              peers := updatePeer db.peers ip (fun q =>
                { q with
                  active_out_connection_attempts := q.active_out_connection_attempts - 1 }),
              active_out_connection_attempts := db.active_out_connection_attempts - 1 })
        | some now =>
          let p2 := { p with
            active_out_connection_attempts := p.active_out_connection_attempts - 1,
            last_failure := some now }
          let peers2 := updatePeer db.peers ip (fun _ => p2)
          let peers3 :=
            if !p2.is_active && !p2.bootstrap then cleanup_peers db.cfg peers2 none else peers2
          (.ok (),
            { db with
              peers := peers3
              active_out_connection_attempts := db.active_out_connection_attempts - 1 })

/-- The fresh record `try_new_in_connection` inserts for an unknown inbound IP
(lines 605-615): not advertised. -/
def new_in_peer (ip : IpAddr) : PeerInfo :=
  { ip := ip, banned := false, bootstrap := false, last_alive := none, last_failure := none,
    advertised := false, active_out_connection_attempts := 0, active_out_connections := 0,
    active_in_connections := 0 }

/-- `try_new_in_connection` (lines 590-630). -/
def try_new_in_connection (db : PeerInfoDatabase) (ip : IpAddr) (nowq : Option Nat) :
    Except CommError Bool × PeerInfoDatabase :=
  if !ip.is_global || decide (db.cfg.max_in_connections ≤ db.active_in_connections) ||
      decide (db.cfg.max_in_connections_per_ip = 0) then
    (.ok false, db)
  else if db.cfg.routable_ip = some ip then (.ok false, db)
  else
    let p0 := (lookupPeer db.peers ip).getD (new_in_peer ip)
    let peers0 :=
      if (lookupPeer db.peers ip).isSome then db.peers else db.peers ++ [new_in_peer ip]
    if p0.banned then
      match nowq with
      | none => (.error .clockError, { db with peers := peers0 })
      | some now =>
        (.ok false,
          { db with peers := updatePeer peers0 ip (fun q => { q with last_failure := some now }) })
    else if decide (db.cfg.max_in_connections_per_ip ≤ p0.active_in_connections) then
      (.ok false, { db with peers := peers0 })
    else
      (.ok true,
        { db with
          peers := updatePeer peers0 ip (fun q =>
            { q with active_in_connections := q.active_in_connections + 1 }),
          active_in_connections := db.active_in_connections + 1 })

/-- One mutating PublicAPI operation. -/
inductive ApiCall where
  | newOutAttempt (ip : IpAddr)
  | tryOutSuccess (ip : IpAddr)
  | outAttemptFailed (ip : IpAddr)
  | outClosed (ip : IpAddr)
  | inClosed (ip : IpAddr)
  | tryNewIn (ip : IpAddr)
  | peerAliveCall (ip : IpAddr)
  | peerFailedCall (ip : IpAddr)
  | peerBannedCall (ip : IpAddr)
  | mergeCandidates (ips : List IpAddr)
deriving DecidableEq, Repr

/-- Dispatch one PublicAPI call, discarding the boolean payload of the `try_*` operations. -/
def apiStep (db : PeerInfoDatabase) (c : ApiCall) (nowq : Option Nat) :
    Except CommError Unit × PeerInfoDatabase :=
  match c with
  | .newOutAttempt ip => new_out_connection_attempt db ip
  | .tryOutSuccess ip =>
    let r := try_out_connection_attempt_success db ip nowq
    (r.1.map (fun _ => ()), r.2)
  | .outAttemptFailed ip => out_connection_attempt_failed db ip nowq
  | .outClosed ip => out_connection_closed db ip
  | .inClosed ip => in_connection_closed db ip
  | .tryNewIn ip =>
    let r := try_new_in_connection db ip nowq
    (r.1.map (fun _ => ()), r.2)
  | .peerAliveCall ip => peer_alive db ip nowq
  | .peerFailedCall ip => peer_failed db ip nowq
  | .peerBannedCall ip => peer_banned db ip nowq
  | .mergeCandidates ips => merge_candidate_peers db ips

/-- Run a sequence of calls (each with its clock reading); `none` if any call errors. -/
def runOk : PeerInfoDatabase → List (ApiCall × Option Nat) → Option PeerInfoDatabase
  | db, [] => some db
  | db, (c, nq) :: rest =>
    match apiStep db c nq with
    | (.ok _, db2) => runOk db2 rest
    | (.error _, _) => none

def exceptOk : Except CommError Unit → Bool
  | .ok _ => true
  | .error _ => false

/-- Sum of one per-record counter over the directory. -/
def sumBy (g : PeerInfo → Nat) (l : List PeerInfo) : Nat := (l.map g).sum

/-- Invariant I1: each aggregate counter equals the sum of the per-record counters. -/
def aggOk (db : PeerInfoDatabase) : Prop :=
  db.active_out_connection_attempts = sumBy (fun p => p.active_out_connection_attempts) db.peers ∧
    db.active_out_connections = sumBy (fun p => p.active_out_connections) db.peers ∧
    db.active_in_connections = sumBy (fun p => p.active_in_connections) db.peers

/-- Invariants I5 and I6: every record's IP is globally routable and differs from the
configured routable IP. -/
def ipsOk (db : PeerInfoDatabase) : Prop :=
  ∀ p ∈ db.peers, key_ok db.cfg p = true

instance : DecidablePred aggOk := fun db => by unfold aggOk; infer_instance

instance : DecidablePred ipsOk := fun db => by unfold ipsOk; infer_instance

/-! ### Concrete addresses and the test configuration (`example_network_config`,
`test_get_out_connection_candidate_ips`) -/

def ip11 : IpAddr := ⟨169, 202, 0, 11⟩

def ip12 : IpAddr := ⟨169, 202, 0, 12⟩

def ip13 : IpAddr := ⟨169, 202, 0, 13⟩

def ip14 : IpAddr := ⟨169, 202, 0, 14⟩

def ip15 : IpAddr := ⟨169, 202, 0, 15⟩

def ip16 : IpAddr := ⟨169, 202, 0, 16⟩

def ip17 : IpAddr := ⟨169, 202, 0, 17⟩

def ip18 : IpAddr := ⟨169, 202, 0, 18⟩

def ip23 : IpAddr := ⟨169, 202, 0, 23⟩

def localhost_ip : IpAddr := ⟨127, 0, 0, 1⟩

/-- The fixed clock reading used to instantiate the relative timestamps of scenario S1. -/
def now0 : Nat := 1000000

/-- `default_peer_info_not_connected` from the repository's tests. -/
def base_peer (ip : IpAddr) : PeerInfo :=
  { ip := ip, banned := false, bootstrap := true, last_alive := none, last_failure := none,
    advertised := true, active_out_connection_attempts := 0, active_out_connections := 0,
    active_in_connections := 0 }

/-- The nine records of scenario S1 (dial-candidate ordering), timestamps relative to
`now0`. -/
def s1_peers : List PeerInfo :=
  [ base_peer ip11,
    { base_peer ip12 with last_failure := some (now0 - 900) },
    { base_peer ip13 with last_alive := some (now0 - 900), last_failure := some (now0 - 1000) },
    { base_peer ip14 with last_alive := some (now0 - 1000) },
    { base_peer ip15 with last_alive := some (now0 - 12000),
                          last_failure := some (now0 - 11000) },
    { base_peer ip16 with last_alive := some (now0 - 2000), last_failure := some (now0 - 1000) },
    { base_peer ip17 with active_out_connections := 1 },
    { base_peer ip18 with advertised := false },
    { base_peer ip23 with banned := true, last_alive := some (now0 - 1000) } ]

/-- `example_network_config` from the repository's tests. -/
def example_config : NetworkConfig :=
  { routable_ip := some localhost_ip, wakeup_interval := 10000, target_out_connections := 10,
    max_in_connections := 5, max_in_connections_per_ip := 2, max_out_connnection_attempts := 15,
    max_idle_peers := 3, max_banned_peers := 3, max_advertise_length := 5 }

/-- The S1 database: the nine records above under `example_config`, zero aggregates. -/
def s1_db : PeerInfoDatabase :=
  { cfg := example_config, peers := s1_peers, active_out_connection_attempts := 0,
    active_out_connections := 0, active_in_connections := 0, wakeup_interval := 10000 }

/-! ### Directory lemmas -/

theorem lookupPeer_ip {l : List PeerInfo} {ip : IpAddr} {p : PeerInfo}
    (h : lookupPeer l ip = some p) : p.ip = ip := by
  induction l with
  | nil => simp [lookupPeer] at h
  | cons q rest ih =>
    by_cases hq : q.ip = ip
    · simp only [lookupPeer, if_pos hq, Option.some.injEq] at h
      subst h; exact hq
    · simp only [lookupPeer, if_neg hq] at h
      exact ih h

theorem lookupPeer_mem {l : List PeerInfo} {ip : IpAddr} {p : PeerInfo}
    (h : lookupPeer l ip = some p) : p ∈ l := by
  induction l with
  | nil => simp [lookupPeer] at h
  | cons q rest ih =>
    by_cases hq : q.ip = ip
    · simp only [lookupPeer, if_pos hq, Option.some.injEq] at h
      subst h; exact List.mem_cons_self _ _
    · simp only [lookupPeer, if_neg hq] at h
      exact List.mem_cons_of_mem _ (ih h)

theorem sumBy_nil (g : PeerInfo → Nat) : sumBy g [] = 0 := rfl

theorem sumBy_cons (g : PeerInfo → Nat) (p : PeerInfo) (l : List PeerInfo) :
    sumBy g (p :: l) = g p + sumBy g l := by
  simp [sumBy]

theorem sumBy_append (g : PeerInfo → Nat) (l1 l2 : List PeerInfo) :
    sumBy g (l1 ++ l2) = sumBy g l1 + sumBy g l2 := by
  simp [sumBy]

theorem sumBy_eq_zero {g : PeerInfo → Nat} {l : List PeerInfo} (h : ∀ p ∈ l, g p = 0) :
    sumBy g l = 0 := by
  induction l with
  | nil => rfl
  | cons q rest ih =>
    rw [sumBy_cons, h q (List.mem_cons_self _ _), ih (fun p hp => h p (List.mem_cons_of_mem _ hp))]

theorem sumBy_filter_split (g : PeerInfo → Nat) (pred : PeerInfo → Bool) (l : List PeerInfo) :
    sumBy g l = sumBy g (l.filter pred) + sumBy g (l.filter (fun x => !pred x)) := by
  induction l with
  | nil => rfl
  | cons q rest ih =>
    rw [sumBy_cons]
    by_cases hq : pred q = true
    · rw [List.filter_cons_of_pos hq, List.filter_cons_of_neg (by simp [hq]), sumBy_cons]
      omega
    · rw [List.filter_cons_of_neg (by simp [hq]), List.filter_cons_of_pos (by simp [hq]),
        sumBy_cons]
      omega

theorem sumBy_updatePeer {l : List PeerInfo} {ip : IpAddr} {p : PeerInfo}
    (g : PeerInfo → Nat) (f : PeerInfo → PeerInfo) (h : lookupPeer l ip = some p) :
    sumBy g (updatePeer l ip f) + g p = sumBy g l + g (f p) := by
  induction l with
  | nil => simp [lookupPeer] at h
  | cons q rest ih =>
    by_cases hq : q.ip = ip
    · simp only [lookupPeer, if_pos hq, Option.some.injEq] at h
      subst h
      simp only [updatePeer, if_pos hq]
      rw [sumBy_cons, sumBy_cons]
      omega
    · simp only [lookupPeer, if_neg hq] at h
      simp only [updatePeer, if_neg hq]
      rw [sumBy_cons, sumBy_cons]
      have := ih h
      omega

theorem mem_updatePeer {l : List PeerInfo} {ip : IpAddr} {f : PeerInfo → PeerInfo}
    {q : PeerInfo} (h : q ∈ updatePeer l ip f) : q ∈ l ∨ ∃ r, r ∈ l ∧ q = f r := by
  induction l with
  | nil => simp [updatePeer] at h
  | cons x rest ih =>
    by_cases hx : x.ip = ip
    · simp only [updatePeer, if_pos hx, List.mem_cons] at h
      rcases h with h | h
      · exact Or.inr ⟨x, List.mem_cons_self _ _, h⟩
      · exact Or.inl (List.mem_cons_of_mem _ h)
    · simp only [updatePeer, if_neg hx, List.mem_cons] at h
      rcases h with h | h
      · exact Or.inl (h ▸ List.mem_cons_self _ _)
      · rcases ih h with h2 | ⟨r, hr, hqr⟩
        · exact Or.inl (List.mem_cons_of_mem _ h2)
        · exact Or.inr ⟨r, List.mem_cons_of_mem _ hr, hqr⟩

theorem lookupPeer_updatePeer {l : List PeerInfo} {ip : IpAddr} {p : PeerInfo}
    {f : PeerInfo → PeerInfo} (h : lookupPeer l ip = some p) (hfp : (f p).ip = ip) :
    lookupPeer (updatePeer l ip f) ip = some (f p) := by
  induction l with
  | nil => simp [lookupPeer] at h
  | cons q rest ih =>
    by_cases hq : q.ip = ip
    · simp only [lookupPeer, if_pos hq, Option.some.injEq] at h
      subst h
      simp only [updatePeer, if_pos hq, lookupPeer, if_pos hfp]
    · simp only [lookupPeer, if_neg hq] at h
      simp only [updatePeer, if_neg hq, lookupPeer, if_neg hq]
      exact ih h

theorem lookupPeer_append_none {l : List PeerInfo} {ip : IpAddr} {x : PeerInfo}
    (h : lookupPeer l ip = none) (hx : x.ip = ip) : lookupPeer (l ++ [x]) ip = some x := by
  induction l with
  | nil => simp [lookupPeer, hx]
  | cons q rest ih =>
    by_cases hq : q.ip = ip
    · simp [lookupPeer, hq] at h
    · simp only [lookupPeer, if_neg hq] at h
      simp only [List.cons_append, lookupPeer, if_neg hq]
      exact ih h

/-! ### Sorting lemmas -/

theorem insertPeer_perm (le : PeerInfo → PeerInfo → Bool) (x : PeerInfo) (l : List PeerInfo) :
    List.Perm (insertPeer le x l) (x :: l) := by
  induction l with
  | nil => exact List.Perm.refl _
  | cons y ys ih =>
    simp only [insertPeer]
    split
    · exact List.Perm.refl _
    · exact (List.Perm.cons y ih).trans (List.Perm.swap x y ys)

theorem sortPeers_perm (le : PeerInfo → PeerInfo → Bool) (l : List PeerInfo) :
    List.Perm (sortPeers le l) l := by
  induction l with
  | nil => exact List.Perm.refl _
  | cons x xs ih =>
    exact (insertPeer_perm le x (sortPeers le xs)).trans (List.Perm.cons x ih)

theorem mem_sortPeers {le : PeerInfo → PeerInfo → Bool} {l : List PeerInfo} {q : PeerInfo} :
    q ∈ sortPeers le l ↔ q ∈ l :=
  (sortPeers_perm le l).mem_iff

theorem mem_take_sortPeers {le : PeerInfo → PeerInfo → Bool} {l : List PeerInfo}
    {q : PeerInfo} {n : Nat} (h : q ∈ (sortPeers le l).take n) : q ∈ l :=
  mem_sortPeers.mp (List.take_subset _ _ h)

theorem optNatLe_total (a b : Option Nat) : optNatLe a b = true ∨ optNatLe b a = true := by
  cases a <;> cases b <;> simp [optNatLe] <;> omega

theorem optNatLt_trichotomy (a b : Option Nat) :
    optNatLt a b = true ∨ a = b ∨ optNatLt b a = true := by
  cases a <;> cases b <;> simp [optNatLt] <;> omega

theorem idleLe_total (p q : PeerInfo) : idleLe p q = true ∨ idleLe q p = true := by
  unfold idleLe
  rcases optNatLt_trichotomy q.last_alive p.last_alive with h | h | h
  · left; simp [h]
  · rcases optNatLe_total p.last_failure q.last_failure with h2 | h2
    · left; simp [h, h2]
    · right; simp [h.symm, h2]
  · right; simp [h]

theorem bannedLe_total (p q : PeerInfo) : bannedLe p q = true ∨ bannedLe q p = true := by
  unfold bannedLe
  rcases optNatLt_trichotomy q.last_failure p.last_failure with h | h | h
  · left; simp [h]
  · rcases optNatLe_total p.last_alive q.last_alive with h2 | h2
    · left; simp [h, h2]
    · right; simp [h.symm, h2]
  · right; simp [h]

theorem insertPeer_head {le : PeerInfo → PeerInfo → Bool} {x b : PeerInfo}
    {l : List PeerInfo} (h : (insertPeer le x l).head? = some b) :
    b = x ∨ l.head? = some b := by
  cases l with
  | nil => simp [insertPeer] at h; exact Or.inl h.symm
  | cons y ys =>
    simp only [insertPeer] at h
    split at h
    · simp at h; exact Or.inl h.symm
    · simp at h; exact Or.inr (by simp [h])

theorem insertPeer_chain {le : PeerInfo → PeerInfo → Bool}
    (htot : ∀ a b, le a b = true ∨ le b a = true) {x : PeerInfo} {l : List PeerInfo}
    (h : List.Chain' (fun a b => le a b = true) l) :
    List.Chain' (fun a b => le a b = true) (insertPeer le x l) := by
  induction l with
  | nil => simp [insertPeer]
  | cons y ys ih =>
    simp only [insertPeer]
    by_cases hxy : le x y = true
    · rw [if_pos hxy]
      exact List.chain'_cons.mpr ⟨hxy, h⟩
    · rw [if_neg hxy]
      refine List.chain'_cons'.mpr ⟨?_, ih h.tail⟩
      intro b hb
      rcases insertPeer_head hb with hbx | hb2
      · rcases htot x y with h2 | h2
        · exact absurd h2 hxy
        · rw [hbx]; exact h2
      · exact (List.chain'_cons'.mp h).1 b hb2

theorem sortPeers_chain {le : PeerInfo → PeerInfo → Bool}
    (htot : ∀ a b, le a b = true ∨ le b a = true) (l : List PeerInfo) :
    List.Chain' (fun a b => le a b = true) (sortPeers le l) := by
  induction l with
  | nil => simp [sortPeers]
  | cons x xs ih => exact insertPeer_chain htot ih

theorem sortPeers_of_chain {le : PeerInfo → PeerInfo → Bool} {l : List PeerInfo}
    (h : List.Chain' (fun a b => le a b = true) l) : sortPeers le l = l := by
  induction l with
  | nil => rfl
  | cons x xs ih =>
    simp only [sortPeers]
    rw [ih h.tail]
    cases xs with
    | nil => rfl
    | cons y ys =>
      simp only [insertPeer]
      rw [if_pos (List.chain'_cons.mp h).1]

/-! ### `filter_take_new` lemmas -/

theorem map_updatePeer {f : PeerInfo → PeerInfo} {β : Type} (g : PeerInfo → β)
    (hg : ∀ q, g (f q) = g q) (l : List PeerInfo) (ip : IpAddr) :
    (updatePeer l ip f).map g = l.map g := by
  induction l with
  | nil => rfl
  | cons q rest ih =>
    by_cases hq : q.ip = ip
    · simp only [updatePeer, if_pos hq, List.map_cons, hg]
    · simp only [updatePeer, if_neg hq, List.map_cons, ih]

theorem filter_take_new_fst_map {cfg : NetworkConfig} {β : Type} (g : PeerInfo → β)
    (hg : ∀ q, g { q with advertised := true } = g q) :
    ∀ (ips : List IpAddr) (k : Nat) (l : List PeerInfo),
      ((filter_take_new cfg ips k l).1).map g = l.map g := by
  intro ips
  induction ips with
  | nil => intro k l; cases k <;> simp [filter_take_new]
  | cons ip rest ih =>
    intro k l
    cases k with
    | zero => simp [filter_take_new]
    | succ k =>
      simp only [filter_take_new]
      split
      · rw [ih, mark_advertised, map_updatePeer g hg]
      · split
        · exact ih _ _
        · split
          · exact ih _ _
          · exact ih _ _

theorem filter_take_new_snd_mem {cfg : NetworkConfig} :
    ∀ (ips : List IpAddr) (k : Nat) (l : List PeerInfo) (q : PeerInfo),
      q ∈ (filter_take_new cfg ips k l).2 →
        ∃ ip, q = new_cleanup_peer ip ∧ ip.is_global = true ∧ cfg.routable_ip ≠ some ip := by
  intro ips
  induction ips with
  | nil => intro k l q hq; cases k <;> simp [filter_take_new] at hq
  | cons ip rest ih =>
    intro k l q hq
    cases k with
    | zero => simp [filter_take_new] at hq
    | succ k =>
      simp only [filter_take_new] at hq
      split at hq
      · exact ih _ _ _ hq
      · split at hq
        · exact ih _ _ _ hq
        · split at hq
          · exact ih _ _ _ hq
          · rename_i hglob hself
            simp only [List.mem_cons] at hq
            rcases hq with rfl | hq
            · exact ⟨ip, rfl, by simpa using hglob, hself⟩
            · exact ih _ _ _ hq

/-! ### `cleanup_peers` invariant lemmas -/

theorem and_true_split {a b : Bool} (h : (a && b) = true) : a = true ∧ b = true := by
  simp only [Bool.and_eq_true] at h; exact h

theorem is_active_false_fields {p : PeerInfo} (h : p.is_active = false) :
    p.active_out_connection_attempts = 0 ∧ p.active_out_connections = 0 ∧
      p.active_in_connections = 0 := by
  simp only [PeerInfo.is_active, Bool.or_eq_false_iff, decide_eq_false_iff_not, not_lt,
    Nat.le_zero] at h
  exact ⟨h.1.1, h.1.2, h.2⟩

theorem new_cleanup_peer_inactive (ip : IpAddr) : (new_cleanup_peer ip).is_active = false := by
  simp [new_cleanup_peer, PeerInfo.is_active]

theorem cleanup_core_key_ok {cfg : NetworkConfig} {drained extra : List PeerInfo}
    (hextra : ∀ q ∈ extra, key_ok cfg q = true) :
    ∀ q ∈ cleanup_core cfg drained extra, key_ok cfg q = true := by
  intro q hq
  simp only [cleanup_core, List.mem_append] at hq
  rcases hq with (hq | hq) | hq
  · have h2 := List.of_mem_filter hq
    exact (and_true_split h2).1
  · have := List.of_mem_filter (mem_take_sortPeers hq)
    exact (and_true_split (and_true_split this).1).1
  · rcases List.mem_append.mp (mem_take_sortPeers hq) with hq2 | hq2
    · have := List.of_mem_filter hq2
      exact (and_true_split
        (and_true_split (and_true_split this).1).1).1
    · exact hextra q hq2

theorem cleanup_core_sumBy {cfg : NetworkConfig} {drained extra : List PeerInfo}
    (g : PeerInfo → Nat) (hg : ∀ q, q.is_active = false → g q = 0)
    (hd : ∀ p ∈ drained, key_ok cfg p = true)
    (hextra : ∀ q ∈ extra, q.is_active = false) :
    sumBy g (cleanup_core cfg drained extra) = sumBy g drained := by
  simp only [cleanup_core]
  rw [sumBy_append, sumBy_append]
  have hbanned : sumBy g ((sortPeers bannedLe
      (drained.filter (fun p =>
        key_ok cfg p && !(p.bootstrap || p.is_active) && p.banned))).take
          cfg.max_banned_peers) = 0 := by
    apply sumBy_eq_zero
    intro p hp
    have := List.of_mem_filter (mem_take_sortPeers hp)
    have hact : p.is_active = false := by
      have h2 := (and_true_split (and_true_split this).1).2
      simp only [Bool.not_eq_true', Bool.or_eq_false_iff] at h2
      exact h2.2
    exact hg p hact
  have hidle : sumBy g ((sortPeers idleLe
      ((drained.filter (fun p =>
        key_ok cfg p && !(p.bootstrap || p.is_active) && !p.banned && p.advertised)) ++
          extra)).take cfg.max_idle_peers) = 0 := by
    apply sumBy_eq_zero
    intro p hp
    rcases List.mem_append.mp (mem_take_sortPeers hp) with hp2 | hp2
    · have := List.of_mem_filter hp2
      have h2 := (and_true_split (and_true_split
        (and_true_split this).1).1).2
      simp only [Bool.not_eq_true', Bool.or_eq_false_iff] at h2
      exact hg p h2.2
    · exact hg p (hextra p hp2)
  rw [hbanned, hidle]
  have hsplit := sumBy_filter_split g
    (fun p => key_ok cfg p && (p.bootstrap || p.is_active)) drained
  have hrest : sumBy g (drained.filter
      (fun p => !(key_ok cfg p && (p.bootstrap || p.is_active)))) = 0 := by
    apply sumBy_eq_zero
    intro p hp
    have hmem := List.mem_filter.mp hp
    have hko := hd p hmem.1
    have := hmem.2
    simp only [hko, Bool.not_eq_true', Bool.and_eq_false_iff] at this
    rcases this with h | h
    · simp [hko] at h
    · simp only [Bool.or_eq_false_iff] at h
      exact hg p h.2
  omega

/-! ### Claim C6: dial-candidate ordering on the S1 directory -/

/-- Claim C6: on the S1 directory (nine records with the literal flags and timestamps of
scenario S1, under the test configuration, zero aggregate counters),
`get_out_connection_candidate_ips` returns exactly
`[169.202.0.14, 169.202.0.11, 169.202.0.15, 169.202.0.13]` in that order — the eligible
candidates sorted ascending by `(last_failure asc, last_alive desc)` and truncated to the
available out-attempt budget. -/
theorem s1_out_connection_candidates :
    get_out_connection_candidate_ips s1_db (some now0) = .ok [ip14, ip11, ip15, ip13] := by
  rfl

/-! ### Claim C7: advertisable list on the S1 directory -/

/-- Claim C7 counterexample: on the S1 directory, `get_advertisable_peer_ips` does NOT
return the claimed list `[127.0.0.1, 169.202.0.14, 169.202.0.13, 169.202.0.17,
169.202.0.11]` (that list is the output for the different directory of the repository's
`test_get_advertisable_peer_ips`, not for S1). -/
theorem s1_advertisable_not_as_claimed :
    ¬ get_advertisable_peer_ips s1_db = [localhost_ip, ip14, ip13, ip17, ip11] := by
  decide

/-- Claim C7 (amended): on the S1 directory with `max_advertise_length = 5`,
`get_advertisable_peer_ips` returns exactly
`[127.0.0.1, 169.202.0.13, 169.202.0.14, 169.202.0.16, 169.202.0.15]`: length 5, the
configured `routable_ip` first, and the remainder the advertised non-banned records sorted
by `(last_alive desc, last_failure asc)` and truncated to `max_advertise_length`. -/
theorem s1_advertisable_peer_ips :
    get_advertisable_peer_ips s1_db = [localhost_ip, ip13, ip14, ip16, ip15] := by
  decide

/-! ### Claim C3: cleanup respects the membership invariants I7 and I8 -/

theorem mem_cleanup_core {cfg : NetworkConfig} {drained extra : List PeerInfo} {q : PeerInfo}
    (hq : q ∈ cleanup_core cfg drained extra) :
    (key_ok cfg q && (q.bootstrap || q.is_active)) = true ∨
      (key_ok cfg q && !(q.bootstrap || q.is_active) && q.banned) = true ∨
      (key_ok cfg q && !(q.bootstrap || q.is_active) && !q.banned && q.advertised) = true ∨
      q ∈ extra := by
  simp only [cleanup_core, List.mem_append] at hq
  rcases hq with (h | h) | h
  · have h2 := List.of_mem_filter h
    exact Or.inl h2
  · have h2 := List.of_mem_filter (mem_take_sortPeers h)
    exact Or.inr (Or.inl h2)
  · rcases List.mem_append.mp (mem_take_sortPeers h) with h2 | h2
    · have h3 := List.of_mem_filter h2
      exact Or.inr (Or.inr (Or.inl h3))
    · exact Or.inr (Or.inr (Or.inr h2))

theorem length_take_le' (l : List PeerInfo) (n : Nat) : (l.take n).length ≤ n := by
  rw [List.length_take]; omega

theorem cleanup_core_banned_count (cfg : NetworkConfig) (drained extra : List PeerInfo)
    (hextra : ∀ q ∈ extra, q.banned = false) :
    (cleanup_core cfg drained extra).countP
        (fun p => !p.is_active && !p.bootstrap && p.banned) ≤ cfg.max_banned_peers := by
  simp only [cleanup_core]
  rw [List.countP_append, List.countP_append]
  have hkeep : (drained.filter (fun p => key_ok cfg p && (p.bootstrap || p.is_active))).countP
      (fun p => !p.is_active && !p.bootstrap && p.banned) = 0 := by
    rw [List.countP_eq_zero]
    intro q hq hpred
    have h0 := List.of_mem_filter hq
    have h1 := (and_true_split h0).2
    simp only [Bool.and_eq_true, Bool.not_eq_true'] at hpred
    simp [hpred.1.1, hpred.1.2] at h1
  have hidle : ((sortPeers idleLe
      ((drained.filter (fun p =>
        key_ok cfg p && !(p.bootstrap || p.is_active) && !p.banned && p.advertised)) ++
          extra)).take cfg.max_idle_peers).countP
      (fun p => !p.is_active && !p.bootstrap && p.banned) = 0 := by
    rw [List.countP_eq_zero]
    intro q hq hpred
    simp only [Bool.and_eq_true, Bool.not_eq_true'] at hpred
    rcases List.mem_append.mp (mem_take_sortPeers hq) with h2 | h2
    · have h0 := List.of_mem_filter h2
      have h3 := (and_true_split (and_true_split h0).1).2
      simp [hpred.2] at h3
    · have := hextra q h2
      simp [hpred.2] at this
  rw [hkeep, hidle]
  have h4 := @List.countP_le_length PeerInfo
    (fun p => !p.is_active && !p.bootstrap && p.banned)
    ((sortPeers bannedLe (drained.filter (fun p =>
      key_ok cfg p && !(p.bootstrap || p.is_active) && p.banned))).take cfg.max_banned_peers)
  have h5 := length_take_le' (sortPeers bannedLe (drained.filter (fun p =>
    key_ok cfg p && !(p.bootstrap || p.is_active) && p.banned))) cfg.max_banned_peers
  omega

theorem cleanup_core_idle_count (cfg : NetworkConfig) (drained extra : List PeerInfo) :
    (cleanup_core cfg drained extra).countP
        (fun p => !p.is_active && !p.bootstrap && !p.banned && p.advertised) ≤
      cfg.max_idle_peers := by
  simp only [cleanup_core]
  rw [List.countP_append, List.countP_append]
  have hkeep : (drained.filter (fun p => key_ok cfg p && (p.bootstrap || p.is_active))).countP
      (fun p => !p.is_active && !p.bootstrap && !p.banned && p.advertised) = 0 := by
    rw [List.countP_eq_zero]
    intro q hq hpred
    have h0 := List.of_mem_filter hq
    have h1 := (and_true_split h0).2
    simp only [Bool.and_eq_true, Bool.not_eq_true'] at hpred
    simp [hpred.1.1.1, hpred.1.1.2] at h1
  have hbanned : ((sortPeers bannedLe (drained.filter (fun p =>
      key_ok cfg p && !(p.bootstrap || p.is_active) && p.banned))).take
        cfg.max_banned_peers).countP
      (fun p => !p.is_active && !p.bootstrap && !p.banned && p.advertised) = 0 := by
    rw [List.countP_eq_zero]
    intro q hq hpred
    simp only [Bool.and_eq_true, Bool.not_eq_true'] at hpred
    have h0 := List.of_mem_filter (mem_take_sortPeers hq)
    have h3 := (and_true_split h0).2
    simp [hpred.1.2] at h3
  rw [hkeep, hbanned]
  have h4 := @List.countP_le_length PeerInfo
    (fun p => !p.is_active && !p.bootstrap && !p.banned && p.advertised)
    ((sortPeers idleLe ((drained.filter (fun p =>
      key_ok cfg p && !(p.bootstrap || p.is_active) && !p.banned && p.advertised)) ++
        extra)).take cfg.max_idle_peers)
  have h5 := length_take_le' (sortPeers idleLe ((drained.filter (fun p =>
    key_ok cfg p && !(p.bootstrap || p.is_active) && !p.banned && p.advertised)) ++
      extra)) cfg.max_idle_peers
  omega

theorem cleanup_core_no_dropped (cfg : NetworkConfig) (drained extra : List PeerInfo)
    (hextra : ∀ q ∈ extra, q.banned = false ∧ q.advertised = true) :
    (cleanup_core cfg drained extra).countP
        (fun p => !p.is_active && !p.bootstrap && !p.advertised && !p.banned) = 0 := by
  rw [List.countP_eq_zero]
  intro q hq hpred
  simp only [Bool.and_eq_true, Bool.not_eq_true'] at hpred
  rcases mem_cleanup_core hq with h | h | h | h
  · have h1 := (and_true_split h).2
    simp [hpred.1.1.1, hpred.1.1.2] at h1
  · have h1 := (and_true_split h).2
    simp [hpred.2] at h1
  · have h1 := (and_true_split h).2
    simp [hpred.1.2] at h1
  · have := (hextra q h).2
    simp [hpred.1.2] at this

/-- Claim C3: after `cleanup_peers` runs on any configuration and any directory, with or
without a new-IP list, the resulting directory contains no record that is simultaneously
inactive, non-bootstrap, non-advertised and non-banned (I7); the number of inactive
non-bootstrap banned records is at most `max_banned_peers`; and the number of inactive
non-bootstrap non-banned advertised records is at most `max_idle_peers` (I8). -/
theorem cleanup_peers_respects_bounds (cfg : NetworkConfig) (peers : List PeerInfo)
    (opt_new_peers : Option (List IpAddr)) :
    (cleanup_peers cfg peers opt_new_peers).countP
        (fun p => !p.is_active && !p.bootstrap && !p.advertised && !p.banned) = 0 ∧
      (cleanup_peers cfg peers opt_new_peers).countP
        (fun p => !p.is_active && !p.bootstrap && p.banned) ≤ cfg.max_banned_peers ∧
      (cleanup_peers cfg peers opt_new_peers).countP
        (fun p => !p.is_active && !p.bootstrap && !p.banned && p.advertised) ≤
        cfg.max_idle_peers := by
  cases opt_new_peers with
  | none =>
    simp only [cleanup_peers]
    exact ⟨cleanup_core_no_dropped cfg peers [] (by intro q hq; cases hq),
      cleanup_core_banned_count cfg peers [] (by intro q hq; cases hq),
      cleanup_core_idle_count cfg peers []⟩
  | some new_peers =>
    simp only [cleanup_peers]
    have hsnd : ∀ q ∈ (filter_take_new cfg (unique_ips new_peers)
        cfg.max_advertise_length peers).2, q.banned = false ∧ q.advertised = true := by
      intro q hq
      obtain ⟨ip, rfl, _, _⟩ := filter_take_new_snd_mem _ _ _ _ hq
      exact ⟨rfl, rfl⟩
    exact ⟨cleanup_core_no_dropped cfg _ _ hsnd,
      cleanup_core_banned_count cfg _ _ (fun q hq => (hsnd q hq).1),
      cleanup_core_idle_count cfg _ _⟩

/-! ### Claim C5: soundness of the dial-candidate filter -/

/-- Claim C5: every IP returned by `get_out_connection_candidate_ips` belongs to a
directory record that is advertised, not banned and inactive, and is dial-eligible at
`now`: either it has no `last_failure`, or its `last_alive` is set and strictly greater
than its `last_failure`, or `now - last_failure` exceeds `wakeup_interval` under saturating
arithmetic (equality not eligible). -/
theorem out_connection_candidates_sound (db : PeerInfoDatabase) (now : Nat)
    (ips : List IpAddr) (ip : IpAddr)
    (hok : get_out_connection_candidate_ips db (some now) = .ok ips) (hmem : ip ∈ ips) :
    ∃ p, p ∈ db.peers ∧ p.ip = ip ∧ p.advertised = true ∧ p.banned = false ∧
      p.is_active = false ∧
      (p.last_failure = none ∨
        (∃ lf la, p.last_failure = some lf ∧ p.last_alive = some la ∧ lf < la) ∨
        (∃ lf, p.last_failure = some lf ∧ db.wakeup_interval < now - lf)) := by
  unfold get_out_connection_candidate_ips at hok
  by_cases hz : get_available_out_connection_attempts db = 0
  · rw [if_pos hz] at hok
    simp only [Except.ok.injEq] at hok
    subst hok
    cases hmem
  · rw [if_neg hz] at hok
    simp only [Except.ok.injEq] at hok
    subst hok
    obtain ⟨p, hp, rfl⟩ := List.mem_map.mp hmem
    have hp2 := mem_take_sortPeers hp
    have hmf := List.mem_filter.mp hp2
    refine ⟨p, hmf.1, rfl, ?_⟩
    have hflt := hmf.2
    unfold dial_candidate_filter at hflt
    have h1 := and_true_split hflt
    have h2 := and_true_split h1.1
    have h3 := and_true_split h2.1
    refine ⟨h3.1, by simpa using h3.2, by simpa using h2.2, ?_⟩
    cases hlf : p.last_failure with
    | none => exact Or.inl rfl
    | some lf =>
      rw [hlf] at h1
      have h4 := h1.2
      rw [Bool.or_eq_true] at h4
      rcases h4 with h4 | h4
      · cases hla : p.last_alive with
        | none => rw [hla] at h4; cases h4
        | some la =>
          rw [hla] at h4
          exact Or.inr (Or.inl ⟨lf, la, rfl, rfl, by simpa using h4⟩)
      · refine Or.inr (Or.inr ⟨lf, rfl, ?_⟩)
        have := of_decide_eq_true h4
        omega

/-- Witness for C5 at the S1 directory: `169.202.0.14` is among the returned candidates
and the theorem yields its record's properties. -/
theorem out_connection_candidates_sound_witness :
    ∃ p, p ∈ s1_db.peers ∧ p.ip = ip14 ∧ p.advertised = true ∧ p.banned = false ∧
      p.is_active = false ∧
      (p.last_failure = none ∨
        (∃ lf la, p.last_failure = some lf ∧ p.last_alive = some la ∧ lf < la) ∨
        (∃ lf, p.last_failure = some lf ∧ s1_db.wakeup_interval < now0 - lf)) :=
  out_connection_candidates_sound s1_db now0 [ip14, ip11, ip15, ip13] ip14 (by rfl) (by decide)

/-! ### Claim C8: inbound connection acceptance -/

/-- Claim C8: `try_new_in_connection ip` returns `Ok(false)` with no error and no state
change whenever `ip` is not globally routable, or the aggregate `active_in_connections` is
at least `max_in_connections`, or `max_in_connections_per_ip` is zero, or `ip` equals the
configured `routable_ip`; and when none of these hold, the record for `ip` (the existing
one, or the freshly inserted non-advertised one) is not banned, and its
`active_in_connections` is below `max_in_connections_per_ip`, the call increments the
inbound count on both the record and the aggregate and returns `Ok(true)`. -/
theorem try_new_in_connection_spec (db : PeerInfoDatabase) (ip : IpAddr) (nowq : Option Nat) :
    ((ip.is_global = false ∨ db.cfg.max_in_connections ≤ db.active_in_connections ∨
        db.cfg.max_in_connections_per_ip = 0 ∨ db.cfg.routable_ip = some ip) →
      try_new_in_connection db ip nowq = (.ok false, db)) ∧
    (ip.is_global = true → db.active_in_connections < db.cfg.max_in_connections →
      db.cfg.max_in_connections_per_ip ≠ 0 → db.cfg.routable_ip ≠ some ip →
      ((lookupPeer db.peers ip).getD (new_in_peer ip)).banned = false →
      ((lookupPeer db.peers ip).getD (new_in_peer ip)).active_in_connections <
        db.cfg.max_in_connections_per_ip →
      (try_new_in_connection db ip nowq).1 = .ok true ∧
        (try_new_in_connection db ip nowq).2.active_in_connections =
          db.active_in_connections + 1 ∧
        lookupPeer (try_new_in_connection db ip nowq).2.peers ip =
          some { (lookupPeer db.peers ip).getD (new_in_peer ip) with
            active_in_connections :=
              ((lookupPeer db.peers ip).getD (new_in_peer ip)).active_in_connections + 1 } ∧
        (try_new_in_connection db ip nowq).2.active_out_connection_attempts =
          db.active_out_connection_attempts ∧
        (try_new_in_connection db ip nowq).2.active_out_connections =
          db.active_out_connections) := by
  constructor
  · intro hrej
    by_cases hc : (!ip.is_global || decide (db.cfg.max_in_connections ≤ db.active_in_connections)
        || decide (db.cfg.max_in_connections_per_ip = 0)) = true
    · unfold try_new_in_connection
      rw [if_pos hc]
    · have hc2 := hc
      simp only [Bool.or_eq_true, Bool.not_eq_true', decide_eq_true_eq] at hc2
      push_neg at hc2
      have hrt : db.cfg.routable_ip = some ip := by
        rcases hrej with h | h | h | h
        · exact absurd h hc2.1.1
        · exact absurd h (not_le.mpr hc2.1.2)
        · exact absurd h hc2.2
        · exact h
      unfold try_new_in_connection
      rw [if_neg hc, if_pos hrt]
  · intro hg hagg hper hrt hban hrec
    have hc : (!ip.is_global || decide (db.cfg.max_in_connections ≤ db.active_in_connections)
        || decide (db.cfg.max_in_connections_per_ip = 0)) = false := by
      simp [hg]
      omega
    have hstep : try_new_in_connection db ip nowq =
        (.ok true,
          { db with
            peers := updatePeer
              (if (lookupPeer db.peers ip).isSome then db.peers
                else db.peers ++ [new_in_peer ip]) ip
              (fun q => { q with active_in_connections := q.active_in_connections + 1 }),
            active_in_connections := db.active_in_connections + 1 }) := by
      unfold try_new_in_connection
      rw [if_neg (by rw [hc]; exact Bool.false_ne_true), if_neg hrt]
      rw [if_neg (show ¬ ((lookupPeer db.peers ip).getD (new_in_peer ip)).banned = true by
        rw [hban]; exact Bool.false_ne_true)]
      rw [if_neg (show ¬ (decide (db.cfg.max_in_connections_per_ip ≤
          ((lookupPeer db.peers ip).getD (new_in_peer ip)).active_in_connections) = true) by
        simp only [decide_eq_true_eq]; omega)]
    rw [hstep]
    refine ⟨rfl, rfl, ?_, rfl, rfl⟩
    cases hlk : lookupPeer db.peers ip with
    | some p =>
      simp only [Option.getD_some, Option.isSome_some, if_true]
      have hip := lookupPeer_ip hlk
      exact lookupPeer_updatePeer hlk hip
    | none =>
      simp only [Option.getD_none, Option.isSome_none, Bool.false_eq_true, if_false]
      have hlk2 : lookupPeer (db.peers ++ [new_in_peer ip]) ip = some (new_in_peer ip) :=
        lookupPeer_append_none hlk rfl
      exact lookupPeer_updatePeer hlk2 rfl

def ip192 : IpAddr := ⟨192, 168, 0, 11⟩

/-- A small database used to witness C8: one known global, non-banned record. -/
def c8_db : PeerInfoDatabase :=
  { cfg := example_config, peers := [base_peer ip11], active_out_connection_attempts := 0,
    active_out_connections := 0, active_in_connections := 0, wakeup_interval := 10000 }

/-- Witness for C8: a non-global inbound IP is refused without error or state change, and
an acceptable inbound connection from `169.202.0.11` increments both counters. -/
theorem try_new_in_connection_spec_witness :
    try_new_in_connection c8_db ip192 (some 5) = (.ok false, c8_db) ∧
      ((try_new_in_connection c8_db ip11 (some 5)).1 = .ok true ∧
        (try_new_in_connection c8_db ip11 (some 5)).2.active_in_connections =
          c8_db.active_in_connections + 1 ∧
        lookupPeer (try_new_in_connection c8_db ip11 (some 5)).2.peers ip11 =
          some { (lookupPeer c8_db.peers ip11).getD (new_in_peer ip11) with
            active_in_connections :=
              ((lookupPeer c8_db.peers ip11).getD (new_in_peer ip11)).active_in_connections
                + 1 } ∧
        (try_new_in_connection c8_db ip11 (some 5)).2.active_out_connection_attempts =
          c8_db.active_out_connection_attempts ∧
        (try_new_in_connection c8_db ip11 (some 5)).2.active_out_connections =
          c8_db.active_out_connections) :=
  ⟨(try_new_in_connection_spec c8_db ip192 (some 5)).1 (Or.inl (by decide)),
    (try_new_in_connection_spec c8_db ip11 (some 5)).2 (by decide) (by decide) (by decide)
      (by decide) (by decide) (by decide)⟩

/-! ### Claim C10: `new_out_connection_attempt` never inspects the ban flag -/

/-- Claim C10: whenever `ip` is globally routable, the available out-attempt budget is
positive and a record for `ip` exists, `new_out_connection_attempt` succeeds and increments
the attempt counter on both the record and the aggregate.  The record `p` is arbitrary: no
hypothesis constrains `p.banned`, so the call succeeds even on a banned record — the
source never inspects the flag. -/
theorem new_out_attempt_ignores_ban (db : PeerInfoDatabase) (ip : IpAddr) (p : PeerInfo)
    (hg : ip.is_global = true) (hav : get_available_out_connection_attempts db ≠ 0)
    (hlk : lookupPeer db.peers ip = some p) :
    (new_out_connection_attempt db ip).1 = .ok () ∧
      (new_out_connection_attempt db ip).2.active_out_connection_attempts =
        db.active_out_connection_attempts + 1 ∧
      lookupPeer (new_out_connection_attempt db ip).2.peers ip =
        some { p with
          active_out_connection_attempts := p.active_out_connection_attempts + 1 } := by
  have hstep : new_out_connection_attempt db ip =
      (.ok (),
        { db with
          peers := updatePeer db.peers ip (fun q =>
            { q with active_out_connection_attempts := q.active_out_connection_attempts + 1 }),
          active_out_connection_attempts := db.active_out_connection_attempts + 1 }) := by
    unfold new_out_connection_attempt
    rw [if_neg (by simp [hg]), if_neg hav, hlk]
  rw [hstep]
  have hip := lookupPeer_ip hlk
  exact ⟨rfl, rfl, lookupPeer_updatePeer hlk hip⟩

/-- A database with a single banned record, to witness C10 on a banned peer. -/
def c10_db : PeerInfoDatabase :=
  { cfg := example_config, peers := [{ base_peer ip12 with banned := true }],
    active_out_connection_attempts := 0, active_out_connections := 0,
    active_in_connections := 0, wakeup_interval := 10000 }

/-- Witness for C10 at a banned record: the attempt is acknowledged and both counters
increment. -/
theorem new_out_attempt_ignores_ban_witness :
    (new_out_connection_attempt c10_db ip12).1 = .ok () ∧
      (new_out_connection_attempt c10_db ip12).2.active_out_connection_attempts =
        c10_db.active_out_connection_attempts + 1 ∧
      lookupPeer (new_out_connection_attempt c10_db ip12).2.peers ip12 =
        some { { base_peer ip12 with banned := true } with
          active_out_connection_attempts :=
            ({ base_peer ip12 with banned := true } : PeerInfo).active_out_connection_attempts
              + 1 } :=
  new_out_attempt_ignores_ban c10_db ip12 { base_peer ip12 with banned := true }
    (by decide) (by decide) (by decide)

/-! ### Claim C9: outbound success against a banned peer -/

def ip40 : IpAddr := ⟨169, 202, 0, 40⟩

/-- The C9 counterexample record: banned, non-bootstrap, exactly one in-flight attempt. -/
def c9_peer : PeerInfo :=
  { ip := ip40, banned := true, bootstrap := false, last_alive := none, last_failure := none,
    advertised := false, active_out_connection_attempts := 1, active_out_connections := 0,
    active_in_connections := 0 }

/-- The C9 counterexample database: `max_banned_peers = 0`, so the banned record is evicted
by the cleanup that runs inside the banned branch. -/
def c9_db : PeerInfoDatabase :=
  { cfg := { example_config with max_banned_peers := 0 }, peers := [c9_peer],
    active_out_connection_attempts := 1, active_out_connections := 0,
    active_in_connections := 0, wakeup_interval := 10000 }

/-- Claim C9 counterexample: all of the claim's preconditions hold (positive aggregate
attempt counter, outbound count below target, a known banned record with a positive
attempt counter), the call returns `Ok(false)` — yet afterwards the directory contains no
record for the IP at all, because the banned branch runs `cleanup_peers` and
`max_banned_peers = 0` evicts the now-inactive record.  The claim's assertions that the
record's `last_failure` is set to now and its `advertised` flag is `true` are therefore
false at this input: there is no such record in the post-state. -/
theorem try_out_success_banned_eviction :
    c9_db.active_out_connection_attempts ≠ 0 ∧
      c9_db.active_out_connections < c9_db.cfg.target_out_connections ∧
      lookupPeer c9_db.peers ip40 = some c9_peer ∧ c9_peer.banned = true ∧
      c9_peer.active_out_connection_attempts ≠ 0 ∧
      (try_out_connection_attempt_success c9_db ip40 (some 77)).1 = .ok false ∧
      lookupPeer (try_out_connection_attempt_success c9_db ip40 (some 77)).2.peers ip40 =
        none :=
  ⟨by decide, by decide, by decide, by decide, by decide, by rfl, by decide⟩

/-- Claim C9 (amended): when `try_out_connection_attempt_success ip` is called with a
positive aggregate attempt counter, `active_out_connections` below
`target_out_connections`, and a known banned record for `ip` with a positive attempt
counter that moreover is bootstrap or remains active after the decrement (so the cleanup
inside the banned branch does not run and cannot evict it), the call returns `Ok(false)`,
decrements the attempt counter on both record and aggregate, sets the record's
`last_failure` to now, sets its `advertised` flag to `true`, and does not increment
`active_out_connections` on either the record or the aggregate. -/
theorem try_out_success_banned_spec (db : PeerInfoDatabase) (ip : IpAddr) (p : PeerInfo)
    (now : Nat) (h1 : db.active_out_connection_attempts ≠ 0)
    (h2 : db.active_out_connections < db.cfg.target_out_connections)
    (hlk : lookupPeer db.peers ip = some p) (hb : p.banned = true)
    (ha : p.active_out_connection_attempts ≠ 0)
    (hsurv : p.bootstrap = true ∨ 2 ≤ p.active_out_connection_attempts ∨
      0 < p.active_out_connections ∨ 0 < p.active_in_connections) :
    (try_out_connection_attempt_success db ip (some now)).1 = .ok false ∧
      (try_out_connection_attempt_success db ip (some now)).2.active_out_connection_attempts =
        db.active_out_connection_attempts - 1 ∧
      (try_out_connection_attempt_success db ip (some now)).2.active_out_connections =
        db.active_out_connections ∧
      lookupPeer (try_out_connection_attempt_success db ip (some now)).2.peers ip =
        some { p with
          active_out_connection_attempts := p.active_out_connection_attempts - 1,
          advertised := true, last_failure := some now } := by
  have h2b : ¬ (decide (db.cfg.target_out_connections ≤ db.active_out_connections) = true) := by
    simp only [decide_eq_true_eq]; omega
  have hcl : (!({ p with
      banned := true,
      active_out_connection_attempts := p.active_out_connection_attempts - 1,
      advertised := true, last_failure := some now } : PeerInfo).is_active &&
        !p.bootstrap) = false := by
    simp only [Bool.and_eq_false_iff, Bool.not_eq_false']
    rcases hsurv with h | h | h | h
    · exact Or.inr h
    · left; simp only [PeerInfo.is_active, Bool.or_eq_true, decide_eq_true_eq]
      left; left; omega
    · left; simp only [PeerInfo.is_active, Bool.or_eq_true, decide_eq_true_eq]
      left; right; omega
    · left; simp only [PeerInfo.is_active, Bool.or_eq_true, decide_eq_true_eq]
      right; omega
  have hstep : try_out_connection_attempt_success db ip (some now) =
      (.ok false,
        { db with
          peers := updatePeer db.peers ip (fun _ =>
            { p with
              active_out_connection_attempts := p.active_out_connection_attempts - 1,
              advertised := true, last_failure := some now }),
          active_out_connection_attempts := db.active_out_connection_attempts - 1 }) := by
    simp only [try_out_connection_attempt_success, hlk, if_neg h1, if_neg h2b, if_neg ha,
      hb, if_true, hcl, Bool.false_eq_true, if_false]
  rw [hstep]
  refine ⟨rfl, rfl, rfl, ?_⟩
  have hip := lookupPeer_ip hlk
  exact lookupPeer_updatePeer hlk hip

def ip41 : IpAddr := ⟨169, 202, 0, 41⟩

/-- Witness record for the amended C9: banned with two in-flight attempts, so it stays
active after the decrement. -/
def c9w_peer : PeerInfo :=
  { ip := ip41, banned := true, bootstrap := false, last_alive := none, last_failure := none,
    advertised := false, active_out_connection_attempts := 2, active_out_connections := 0,
    active_in_connections := 0 }

def c9w_db : PeerInfoDatabase :=
  { cfg := example_config, peers := [c9w_peer], active_out_connection_attempts := 2,
    active_out_connections := 0, active_in_connections := 0, wakeup_interval := 10000 }

/-- Witness for the amended C9 at a banned record with two attempts. -/
theorem try_out_success_banned_spec_witness :
    (try_out_connection_attempt_success c9w_db ip41 (some 77)).1 = .ok false ∧
      (try_out_connection_attempt_success c9w_db ip41
          (some 77)).2.active_out_connection_attempts =
        c9w_db.active_out_connection_attempts - 1 ∧
      (try_out_connection_attempt_success c9w_db ip41 (some 77)).2.active_out_connections =
        c9w_db.active_out_connections ∧
      lookupPeer (try_out_connection_attempt_success c9w_db ip41 (some 77)).2.peers ip41 =
        some { c9w_peer with
          active_out_connection_attempts := c9w_peer.active_out_connection_attempts - 1,
          advertised := true, last_failure := some 77 } :=
  try_out_success_banned_spec c9w_db ip41 c9w_peer 77 (by decide) (by decide) (by decide)
    (by decide) (by decide) (Or.inr (Or.inl (by decide)))

/-! ### Claim C2: errors and state mutation -/

theorem apiStep_error_cases (db : PeerInfoDatabase) (c : ApiCall) (t : Nat) :
    exceptOk (apiStep db c (some t)).1 = true ∨ (apiStep db c (some t)).2 = db := by
  cases c <;>
    simp only [apiStep, new_out_connection_attempt, try_out_connection_attempt_success,
      out_connection_attempt_failed, out_connection_closed, in_connection_closed,
      try_new_in_connection, peer_alive, peer_failed, peer_banned, merge_candidate_peers] <;>
    repeat
      first
      | exact Or.inl rfl
      | exact Or.inr rfl
      | split

/-- Claim C2 counterexample: `try_out_connection_attempt_success` on a banned record with
one in-flight attempt, when the clock read fails, returns an error — yet the attempt
counters were already decremented and the `advertised` flag set, so the state differs from
the pre-call state.  The claim as stated ("if the operation returns an error, the peer
directory and all three aggregate counters are exactly as they were before the call") is
therefore false. -/
theorem api_error_partial_mutation :
    exceptOk (apiStep c9_db (.tryOutSuccess ip40) none).1 = false ∧
      (apiStep c9_db (.tryOutSuccess ip40) none).2 ≠ c9_db :=
  ⟨by rfl, by decide⟩

/-- Claim C2 (amended): for every PublicAPI operation and every starting state, if the
wall-clock read succeeds and the operation returns an error, the peer directory and all
three aggregate counters are exactly as they were before the call.  (When `UTime::now()`
itself fails, `try_out_connection_attempt_success` and `out_connection_attempt_failed`
return the clock error after having already decremented the attempt counters — the
counterexample above.) -/
theorem api_error_no_mutation (db : PeerInfoDatabase) (c : ApiCall) (t : Nat)
    (herr : exceptOk (apiStep db c (some t)).1 = false) :
    (apiStep db c (some t)).2 = db := by
  rcases apiStep_error_cases db c t with h | h
  · rw [herr] at h
    exact absurd h Bool.false_ne_true
  · exact h

/-- Witness for the amended C2: `peer_alive` on an unknown IP errors and leaves the
database unchanged. -/
theorem api_error_no_mutation_witness :
    (apiStep c8_db (.peerAliveCall ip40) (some 3)).2 = c8_db :=
  api_error_no_mutation c8_db (.peerAliveCall ip40) 3 (by rfl)

/-! ### Claim C4: cleanup is idempotent -/

theorem cleanup_core_idem (cfg : NetworkConfig) (d : List PeerInfo) :
    cleanup_core cfg (cleanup_core cfg d []) [] = cleanup_core cfg d [] := by
  have hKsub : ∀ q ∈ d.filter (fun p => key_ok cfg p && (p.bootstrap || p.is_active)),
      (key_ok cfg q && (q.bootstrap || q.is_active)) = true := by
    intro q hq
    have h0 := List.of_mem_filter hq
    exact h0
  have hBsub : ∀ q ∈ (sortPeers bannedLe (d.filter (fun p =>
      key_ok cfg p && !(p.bootstrap || p.is_active) && p.banned))).take cfg.max_banned_peers,
      (key_ok cfg q && !(q.bootstrap || q.is_active) && q.banned) = true := by
    intro q hq
    have h0 := List.of_mem_filter (mem_take_sortPeers hq)
    exact h0
  have hIsub : ∀ q ∈ (sortPeers idleLe (d.filter (fun p =>
      key_ok cfg p && !(p.bootstrap || p.is_active) && !p.banned && p.advertised))).take
        cfg.max_idle_peers,
      (key_ok cfg q && !(q.bootstrap || q.is_active) && !q.banned && q.advertised) = true := by
    intro q hq
    have h0 := List.of_mem_filter (mem_take_sortPeers hq)
    exact h0
  have hchainB : List.Chain' (fun a b => bannedLe a b = true)
      ((sortPeers bannedLe (d.filter (fun p =>
        key_ok cfg p && !(p.bootstrap || p.is_active) && p.banned))).take
          cfg.max_banned_peers) :=
    (sortPeers_chain bannedLe_total _).take _
  have hchainI : List.Chain' (fun a b => idleLe a b = true)
      ((sortPeers idleLe (d.filter (fun p =>
        key_ok cfg p && !(p.bootstrap || p.is_active) && !p.banned && p.advertised))).take
          cfg.max_idle_peers) :=
    (sortPeers_chain idleLe_total _).take _
  have hlenB := length_take_le' (sortPeers bannedLe (d.filter (fun p =>
    key_ok cfg p && !(p.bootstrap || p.is_active) && p.banned))) cfg.max_banned_peers
  have hlenI := length_take_le' (sortPeers idleLe (d.filter (fun p =>
    key_ok cfg p && !(p.bootstrap || p.is_active) && !p.banned && p.advertised)))
    cfg.max_idle_peers
  simp only [cleanup_core, List.append_nil]
  generalize hK : d.filter (fun p => key_ok cfg p && (p.bootstrap || p.is_active)) = K at *
  generalize hB : (sortPeers bannedLe (d.filter (fun p =>
    key_ok cfg p && !(p.bootstrap || p.is_active) && p.banned))).take
      cfg.max_banned_peers = B at *
  generalize hI : (sortPeers idleLe (d.filter (fun p =>
    key_ok cfg p && !(p.bootstrap || p.is_active) && !p.banned && p.advertised))).take
      cfg.max_idle_peers = I at *
  have hfK : (K ++ B ++ I).filter
      (fun p => key_ok cfg p && (p.bootstrap || p.is_active)) = K := by
    rw [List.filter_append, List.filter_append]
    have h1 : K.filter (fun p => key_ok cfg p && (p.bootstrap || p.is_active)) = K := by
      rw [List.filter_eq_self]; exact hKsub
    have h2 : B.filter (fun p => key_ok cfg p && (p.bootstrap || p.is_active)) = [] := by
      rw [List.filter_eq_nil_iff]
      intro q hq
      have h3 := and_true_split (and_true_split (hBsub q hq)).1
      simp only [Bool.not_eq_true'] at h3
      simp [h3.2]
    have h4 : I.filter (fun p => key_ok cfg p && (p.bootstrap || p.is_active)) = [] := by
      rw [List.filter_eq_nil_iff]
      intro q hq
      have h3 := and_true_split (and_true_split (and_true_split (hIsub q hq)).1).1
      simp only [Bool.not_eq_true'] at h3
      simp [h3.2]
    rw [h1, h2, h4]
    simp
  have hfB : (K ++ B ++ I).filter
      (fun p => key_ok cfg p && !(p.bootstrap || p.is_active) && p.banned) = B := by
    rw [List.filter_append, List.filter_append]
    have h1 : K.filter
        (fun p => key_ok cfg p && !(p.bootstrap || p.is_active) && p.banned) = [] := by
      rw [List.filter_eq_nil_iff]
      intro q hq
      have h3 := and_true_split (hKsub q hq)
      simp [h3.2]
    have h2 : B.filter
        (fun p => key_ok cfg p && !(p.bootstrap || p.is_active) && p.banned) = B := by
      rw [List.filter_eq_self]; exact hBsub
    have h4 : I.filter
        (fun p => key_ok cfg p && !(p.bootstrap || p.is_active) && p.banned) = [] := by
      rw [List.filter_eq_nil_iff]
      intro q hq
      have h3 := and_true_split (and_true_split (hIsub q hq)).1
      simp only [Bool.not_eq_true'] at h3
      simp [h3.2]
    rw [h1, h2, h4]
    simp
  have hfI : (K ++ B ++ I).filter
      (fun p => key_ok cfg p && !(p.bootstrap || p.is_active) && !p.banned &&
        p.advertised) = I := by
    rw [List.filter_append, List.filter_append]
    have h1 : K.filter (fun p => key_ok cfg p && !(p.bootstrap || p.is_active) && !p.banned &&
        p.advertised) = [] := by
      rw [List.filter_eq_nil_iff]
      intro q hq
      have h3 := and_true_split (hKsub q hq)
      simp [h3.2]
    have h2 : B.filter (fun p => key_ok cfg p && !(p.bootstrap || p.is_active) && !p.banned &&
        p.advertised) = [] := by
      rw [List.filter_eq_nil_iff]
      intro q hq
      have h3 := and_true_split (hBsub q hq)
      simp [h3.2]
    have h4 : I.filter (fun p => key_ok cfg p && !(p.bootstrap || p.is_active) && !p.banned &&
        p.advertised) = I := by
      rw [List.filter_eq_self]; exact hIsub
    rw [h1, h2, h4]
    simp
  rw [hfK, hfB, hfI, sortPeers_of_chain hchainB, sortPeers_of_chain hchainI,
    List.take_of_length_le hlenB, List.take_of_length_le hlenI]

/-- Claim C4: for every configuration and every directory, running `cleanup_peers` twice
with no new-IP list produces a directory with exactly the same set of member IPs as
running it once — the cleanup policy is idempotent on membership.  (In this model the
rebuilt directory is in fact identical, which is stronger.) -/
theorem cleanup_twice_same_membership (cfg : NetworkConfig) (peers : List PeerInfo)
    (ip : IpAddr) :
    (ip ∈ (cleanup_peers cfg (cleanup_peers cfg peers none) none).map (fun p => p.ip) ↔
      ip ∈ (cleanup_peers cfg peers none).map (fun p => p.ip)) := by
  simp only [cleanup_peers]
  rw [cleanup_core_idem]

/-! ### Claim C1: the aggregate counters stay equal to the per-record sums -/

theorem mem_updatePeer_lookup {l : List PeerInfo} {ip : IpAddr} {f : PeerInfo → PeerInfo}
    {p q : PeerInfo} (hlk : lookupPeer l ip = some p) (hq : q ∈ updatePeer l ip f) :
    q ∈ l ∨ q = f p := by
  induction l with
  | nil => simp [lookupPeer] at hlk
  | cons x rest ih =>
    by_cases hx : x.ip = ip
    · simp only [lookupPeer, if_pos hx, Option.some.injEq] at hlk
      subst hlk
      simp only [updatePeer, if_pos hx, List.mem_cons] at hq
      rcases hq with hq | hq
      · exact Or.inr hq
      · exact Or.inl (List.mem_cons_of_mem _ hq)
    · simp only [lookupPeer, if_neg hx] at hlk
      simp only [updatePeer, if_neg hx, List.mem_cons] at hq
      rcases hq with hq | hq
      · exact Or.inl (hq ▸ List.mem_cons_self _ _)
      · rcases ih hlk hq with h | h
        · exact Or.inl (List.mem_cons_of_mem _ h)
        · exact Or.inr h

theorem sumBy_updatePeer_eq {l : List PeerInfo} {ip : IpAddr} {p : PeerInfo}
    (g : PeerInfo → Nat) (f : PeerInfo → PeerInfo) (hlk : lookupPeer l ip = some p)
    (hf : g (f p) = g p) : sumBy g (updatePeer l ip f) = sumBy g l := by
  have := sumBy_updatePeer g f hlk
  omega

theorem ipsOk_updatePeer {cfg : NetworkConfig} {l : List PeerInfo} {ip : IpAddr}
    {f : PeerInfo → PeerInfo} {p : PeerInfo} (hlk : lookupPeer l ip = some p)
    (hl : ∀ q ∈ l, key_ok cfg q = true) (hf : key_ok cfg (f p) = key_ok cfg p) :
    ∀ q ∈ updatePeer l ip f, key_ok cfg q = true := by
  intro q hq
  rcases mem_updatePeer_lookup hlk hq with h | h
  · exact hl q h
  · rw [h, hf]
    exact hl p (lookupPeer_mem hlk)

theorem all_true_of_map_eq {g : PeerInfo → Bool} {l1 l2 : List PeerInfo}
    (hmap : l1.map g = l2.map g) (h : ∀ p ∈ l2, g p = true) : ∀ p ∈ l1, g p = true := by
  intro p hp
  have hmem : g p ∈ l1.map g := List.mem_map_of_mem g hp
  rw [hmap] at hmem
  obtain ⟨q, hq, hgq⟩ := List.mem_map.mp hmem
  rw [← hgq]
  exact h q hq

theorem key_ok_new_cleanup_peer {cfg : NetworkConfig} {ip : IpAddr}
    (hg : ip.is_global = true) (hs : cfg.routable_ip ≠ some ip) :
    key_ok cfg (new_cleanup_peer ip) = true := by
  simp [key_ok, new_cleanup_peer, hg, hs]

theorem cleanup_peers_key_ok (cfg : NetworkConfig) (l : List PeerInfo)
    (o : Option (List IpAddr)) : ∀ q ∈ cleanup_peers cfg l o, key_ok cfg q = true := by
  cases o with
  | none =>
    simp only [cleanup_peers]
    exact cleanup_core_key_ok (by intro q hq; cases hq)
  | some new_peers =>
    simp only [cleanup_peers]
    refine cleanup_core_key_ok ?_
    intro q hq
    obtain ⟨ip, rfl, hg, hs⟩ := filter_take_new_snd_mem _ _ _ _ hq
    exact key_ok_new_cleanup_peer hg hs

/-- The three counter sums are unchanged by `cleanup_peers` as long as every record's key
is globally routable and not the self IP (so the drain loop drops only records whose
counters are all zero). -/
theorem cleanup_peers_sums (cfg : NetworkConfig) (l : List PeerInfo)
    (o : Option (List IpAddr)) (g : PeerInfo → Nat)
    (hg1 : ∀ q, g { q with advertised := true } = g q)
    (hg2 : ∀ q, q.is_active = false → g q = 0)
    (hl : ∀ p ∈ l, key_ok cfg p = true) :
    sumBy g (cleanup_peers cfg l o) = sumBy g l := by
  cases o with
  | none =>
    simp only [cleanup_peers]
    exact cleanup_core_sumBy g hg2 hl (by intro q hq; cases hq)
  | some new_peers =>
    simp only [cleanup_peers]
    have hmap := @filter_take_new_fst_map cfg Nat g hg1 (unique_ips new_peers)
      cfg.max_advertise_length l
    have hkeymap := @filter_take_new_fst_map cfg Bool (key_ok cfg) (fun q => rfl)
      (unique_ips new_peers) cfg.max_advertise_length l
    have hsum1 : sumBy g (filter_take_new cfg (unique_ips new_peers)
        cfg.max_advertise_length l).1 = sumBy g l := by
      unfold sumBy
      rw [hmap]
    rw [cleanup_core_sumBy g hg2 (all_true_of_map_eq hkeymap hl) ?hex]
    · exact hsum1
    case hex =>
      intro q hq
      obtain ⟨ip, rfl, _, _⟩ := filter_take_new_snd_mem _ _ _ _ hq
      exact new_cleanup_peer_inactive ip

theorem aggOk_fields {db : PeerInfoDatabase} (h : aggOk db) :
    db.active_out_connection_attempts =
        sumBy (fun p => p.active_out_connection_attempts) db.peers ∧
      db.active_out_connections = sumBy (fun p => p.active_out_connections) db.peers ∧
      db.active_in_connections = sumBy (fun p => p.active_in_connections) db.peers := h

theorem peer_alive_inv (db : PeerInfoDatabase) (ip : IpAddr) (nq : Option Nat) (u : Unit)
    (db2 : PeerInfoDatabase) (h : peer_alive db ip nq = (.ok u, db2))
    (h1 : aggOk db) (h2 : ipsOk db) : aggOk db2 ∧ ipsOk db2 := by
  simp only [peer_alive] at h
  split at h
  · simp only [Prod.mk.injEq] at h
    exact Except.noConfusion h.1
  · rename_i p hlk
    split at h
    · simp only [Prod.mk.injEq] at h
      exact Except.noConfusion h.1
    · simp only [Prod.mk.injEq] at h
      obtain ⟨-, h⟩ := h
      subst h
      obtain ⟨a1, a2, a3⟩ := h1
      refine ⟨⟨?_, ?_, ?_⟩, ?_⟩
      · rw [sumBy_updatePeer_eq _ _ hlk rfl]; exact a1
      · rw [sumBy_updatePeer_eq _ _ hlk rfl]; exact a2
      · rw [sumBy_updatePeer_eq _ _ hlk rfl]; exact a3
      · exact ipsOk_updatePeer hlk h2 rfl

theorem peer_failed_inv (db : PeerInfoDatabase) (ip : IpAddr) (nq : Option Nat) (u : Unit)
    (db2 : PeerInfoDatabase) (h : peer_failed db ip nq = (.ok u, db2))
    (h1 : aggOk db) (h2 : ipsOk db) : aggOk db2 ∧ ipsOk db2 := by
  simp only [peer_failed] at h
  split at h
  · simp only [Prod.mk.injEq] at h
    exact Except.noConfusion h.1
  · rename_i p hlk
    split at h
    · simp only [Prod.mk.injEq] at h
      exact Except.noConfusion h.1
    · simp only [Prod.mk.injEq] at h
      obtain ⟨-, h⟩ := h
      subst h
      obtain ⟨a1, a2, a3⟩ := h1
      refine ⟨⟨?_, ?_, ?_⟩, ?_⟩
      · rw [sumBy_updatePeer_eq _ _ hlk rfl]; exact a1
      · rw [sumBy_updatePeer_eq _ _ hlk rfl]; exact a2
      · rw [sumBy_updatePeer_eq _ _ hlk rfl]; exact a3
      · exact ipsOk_updatePeer hlk h2 rfl

theorem new_out_connection_attempt_inv (db : PeerInfoDatabase) (ip : IpAddr) (u : Unit)
    (db2 : PeerInfoDatabase) (h : new_out_connection_attempt db ip = (.ok u, db2))
    (h1 : aggOk db) (h2 : ipsOk db) : aggOk db2 ∧ ipsOk db2 := by
  simp only [new_out_connection_attempt] at h
  split at h
  · simp only [Prod.mk.injEq] at h
    exact Except.noConfusion h.1
  · split at h
    · simp only [Prod.mk.injEq] at h
      exact Except.noConfusion h.1
    · split at h
      · simp only [Prod.mk.injEq] at h
        exact Except.noConfusion h.1
      · rename_i p hlk
        simp only [Prod.mk.injEq] at h
        obtain ⟨-, h⟩ := h
        subst h
        obtain ⟨a1, a2, a3⟩ := h1
        refine ⟨⟨?_, ?_, ?_⟩, ?_⟩
        · have hsum := sumBy_updatePeer (fun p => p.active_out_connection_attempts)
            (fun q => { q with
              active_out_connection_attempts := q.active_out_connection_attempts + 1 }) hlk
          dsimp only at hsum ⊢
          omega
        · rw [sumBy_updatePeer_eq _ _ hlk rfl]; exact a2
        · rw [sumBy_updatePeer_eq _ _ hlk rfl]; exact a3
        · exact ipsOk_updatePeer hlk h2 rfl

theorem out_connection_closed_inv (db : PeerInfoDatabase) (ip : IpAddr) (u : Unit)
    (db2 : PeerInfoDatabase) (h : out_connection_closed db ip = (.ok u, db2))
    (h1 : aggOk db) (h2 : ipsOk db) : aggOk db2 ∧ ipsOk db2 := by
  simp only [out_connection_closed] at h
  split at h
  · simp only [Prod.mk.injEq] at h
    exact Except.noConfusion h.1
  · rename_i hagg
    split at h
    · simp only [Prod.mk.injEq] at h
      exact Except.noConfusion h.1
    · rename_i p hlk
      split at h
      · simp only [Prod.mk.injEq] at h
        exact Except.noConfusion h.1
      · rename_i hpo
        obtain ⟨a1, a2, a3⟩ := h1
        have hips2 : ∀ q ∈ updatePeer db.peers ip (fun _ =>
            { p with active_out_connections := p.active_out_connections - 1 }),
            key_ok db.cfg q = true := ipsOk_updatePeer hlk h2 rfl
        have hsumO := sumBy_updatePeer (fun q => q.active_out_connections)
          (fun _ => { p with active_out_connections := p.active_out_connections - 1 }) hlk
        dsimp only at hsumO
        have hp1 : 1 ≤ p.active_out_connections := Nat.pos_of_ne_zero hpo
        split at h
        · -- the record became inactive and non-bootstrap: cleanup runs
          simp only [Prod.mk.injEq] at h
          obtain ⟨-, h⟩ := h
          subst h
          have eA : sumBy (fun q => q.active_out_connection_attempts)
              (cleanup_peers db.cfg (updatePeer db.peers ip (fun _ =>
                { p with active_out_connections := p.active_out_connections - 1 })) none) =
              sumBy (fun q => q.active_out_connection_attempts) db.peers := by
            rw [cleanup_peers_sums _ _ _ (fun q => q.active_out_connection_attempts) (fun q => rfl)
              (fun q hq => (is_active_false_fields hq).1) hips2]
            exact sumBy_updatePeer_eq _ _ hlk rfl
          have eO : sumBy (fun q => q.active_out_connections)
              (cleanup_peers db.cfg (updatePeer db.peers ip (fun _ =>
                { p with active_out_connections := p.active_out_connections - 1 })) none) + 1 =
              sumBy (fun q => q.active_out_connections) db.peers := by
            rw [cleanup_peers_sums _ _ _ (fun q => q.active_out_connections) (fun q => rfl)
              (fun q hq => (is_active_false_fields hq).2.1) hips2]
            omega
          have eI : sumBy (fun q => q.active_in_connections)
              (cleanup_peers db.cfg (updatePeer db.peers ip (fun _ =>
                { p with active_out_connections := p.active_out_connections - 1 })) none) =
              sumBy (fun q => q.active_in_connections) db.peers := by
            rw [cleanup_peers_sums _ _ _ (fun q => q.active_in_connections) (fun q => rfl)
              (fun q hq => (is_active_false_fields hq).2.2) hips2]
            exact sumBy_updatePeer_eq _ _ hlk rfl
          refine ⟨⟨?_, ?_, ?_⟩, ?_⟩
          · dsimp only
            omega
          · dsimp only
            omega
          · dsimp only
            omega
          · dsimp only [ipsOk]
            intro q hq
            exact cleanup_peers_key_ok _ _ _ q hq
        · -- record still active or bootstrap: no cleanup
          simp only [Prod.mk.injEq] at h
          obtain ⟨-, h⟩ := h
          subst h
          have eA : sumBy (fun q => q.active_out_connection_attempts)
              (updatePeer db.peers ip (fun _ =>
                { p with active_out_connections := p.active_out_connections - 1 })) =
              sumBy (fun q => q.active_out_connection_attempts) db.peers :=
            sumBy_updatePeer_eq _ _ hlk rfl
          have eI : sumBy (fun q => q.active_in_connections)
              (updatePeer db.peers ip (fun _ =>
                { p with active_out_connections := p.active_out_connections - 1 })) =
              sumBy (fun q => q.active_in_connections) db.peers :=
            sumBy_updatePeer_eq _ _ hlk rfl
          refine ⟨⟨?_, ?_, ?_⟩, ?_⟩
          · dsimp only
            omega
          · dsimp only
            omega
          · dsimp only
            omega
          · exact hips2

theorem in_connection_closed_inv (db : PeerInfoDatabase) (ip : IpAddr) (u : Unit)
    (db2 : PeerInfoDatabase) (h : in_connection_closed db ip = (.ok u, db2))
    (h1 : aggOk db) (h2 : ipsOk db) : aggOk db2 ∧ ipsOk db2 := by
  simp only [in_connection_closed] at h
  split at h
  · simp only [Prod.mk.injEq] at h
    exact Except.noConfusion h.1
  · rename_i hagg
    split at h
    · simp only [Prod.mk.injEq] at h
      exact Except.noConfusion h.1
    · rename_i p hlk
      split at h
      · simp only [Prod.mk.injEq] at h
        exact Except.noConfusion h.1
      · rename_i hpo
        obtain ⟨a1, a2, a3⟩ := h1
        have hips2 : ∀ q ∈ updatePeer db.peers ip (fun _ =>
            { p with active_in_connections := p.active_in_connections - 1 }),
            key_ok db.cfg q = true := ipsOk_updatePeer hlk h2 rfl
        have hsumI := sumBy_updatePeer (fun q => q.active_in_connections)
          (fun _ => { p with active_in_connections := p.active_in_connections - 1 }) hlk
        dsimp only at hsumI
        have hp1 : 1 ≤ p.active_in_connections := Nat.pos_of_ne_zero hpo
        split at h
        · simp only [Prod.mk.injEq] at h
          obtain ⟨-, h⟩ := h
          subst h
          have eA : sumBy (fun q => q.active_out_connection_attempts)
              (cleanup_peers db.cfg (updatePeer db.peers ip (fun _ =>
                { p with active_in_connections := p.active_in_connections - 1 })) none) =
              sumBy (fun q => q.active_out_connection_attempts) db.peers := by
            rw [cleanup_peers_sums _ _ _ (fun q => q.active_out_connection_attempts) (fun q => rfl)
              (fun q hq => (is_active_false_fields hq).1) hips2]
            exact sumBy_updatePeer_eq _ _ hlk rfl
          have eO : sumBy (fun q => q.active_out_connections)
              (cleanup_peers db.cfg (updatePeer db.peers ip (fun _ =>
                { p with active_in_connections := p.active_in_connections - 1 })) none) =
              sumBy (fun q => q.active_out_connections) db.peers := by
            rw [cleanup_peers_sums _ _ _ (fun q => q.active_out_connections) (fun q => rfl)
              (fun q hq => (is_active_false_fields hq).2.1) hips2]
            exact sumBy_updatePeer_eq _ _ hlk rfl
          have eI : sumBy (fun q => q.active_in_connections)
              (cleanup_peers db.cfg (updatePeer db.peers ip (fun _ =>
                { p with active_in_connections := p.active_in_connections - 1 })) none) + 1 =
              sumBy (fun q => q.active_in_connections) db.peers := by
            rw [cleanup_peers_sums _ _ _ (fun q => q.active_in_connections) (fun q => rfl)
              (fun q hq => (is_active_false_fields hq).2.2) hips2]
            omega
          refine ⟨⟨?_, ?_, ?_⟩, ?_⟩
          · dsimp only
            omega
          · dsimp only
            omega
          · dsimp only
            omega
          · dsimp only [ipsOk]
            intro q hq
            exact cleanup_peers_key_ok _ _ _ q hq
        · simp only [Prod.mk.injEq] at h
          obtain ⟨-, h⟩ := h
          subst h
          have eA : sumBy (fun q => q.active_out_connection_attempts)
              (updatePeer db.peers ip (fun _ =>
                { p with active_in_connections := p.active_in_connections - 1 })) =
              sumBy (fun q => q.active_out_connection_attempts) db.peers :=
            sumBy_updatePeer_eq _ _ hlk rfl
          have eO : sumBy (fun q => q.active_out_connections)
              (updatePeer db.peers ip (fun _ =>
                { p with active_in_connections := p.active_in_connections - 1 })) =
              sumBy (fun q => q.active_out_connections) db.peers :=
            sumBy_updatePeer_eq _ _ hlk rfl
          refine ⟨⟨?_, ?_, ?_⟩, ?_⟩
          · dsimp only
            omega
          · dsimp only
            omega
          · dsimp only
            omega
          · exact hips2

theorem out_connection_attempt_failed_inv (db : PeerInfoDatabase) (ip : IpAddr)
    (nq : Option Nat) (u : Unit) (db2 : PeerInfoDatabase)
    (h : out_connection_attempt_failed db ip nq = (.ok u, db2))
    (h1 : aggOk db) (h2 : ipsOk db) : aggOk db2 ∧ ipsOk db2 := by
  simp only [out_connection_attempt_failed] at h
  split at h
  · simp only [Prod.mk.injEq] at h
    exact Except.noConfusion h.1
  · rename_i hagg
    split at h
    · simp only [Prod.mk.injEq] at h
      exact Except.noConfusion h.1
    · rename_i p hlk
      split at h
      · simp only [Prod.mk.injEq] at h
        exact Except.noConfusion h.1
      · rename_i hpo
        split at h
        · simp only [Prod.mk.injEq] at h
          exact Except.noConfusion h.1
        · rename_i now
          obtain ⟨a1, a2, a3⟩ := h1
          have hips2 : ∀ q ∈ updatePeer db.peers ip (fun _ =>
              { p with
                active_out_connection_attempts := p.active_out_connection_attempts - 1,
                last_failure := some now }),
              key_ok db.cfg q = true := ipsOk_updatePeer hlk h2 rfl
          have hsumA := sumBy_updatePeer (fun q => q.active_out_connection_attempts)
            (fun _ => { p with
              active_out_connection_attempts := p.active_out_connection_attempts - 1,
              last_failure := some now }) hlk
          dsimp only at hsumA
          have hp1 : 1 ≤ p.active_out_connection_attempts := Nat.pos_of_ne_zero hpo
          split at h
          · simp only [Prod.mk.injEq] at h
            obtain ⟨-, h⟩ := h
            subst h
            have eA : sumBy (fun q => q.active_out_connection_attempts)
                (cleanup_peers db.cfg (updatePeer db.peers ip (fun _ =>
                  { p with
                    active_out_connection_attempts := p.active_out_connection_attempts - 1,
                    last_failure := some now })) none) + 1 =
                sumBy (fun q => q.active_out_connection_attempts) db.peers := by
              rw [cleanup_peers_sums _ _ _ (fun q => q.active_out_connection_attempts)
                (fun q => rfl) (fun q hq => (is_active_false_fields hq).1) hips2]
              omega
            have eO : sumBy (fun q => q.active_out_connections)
                (cleanup_peers db.cfg (updatePeer db.peers ip (fun _ =>
                  { p with
                    active_out_connection_attempts := p.active_out_connection_attempts - 1,
                    last_failure := some now })) none) =
                sumBy (fun q => q.active_out_connections) db.peers := by
              rw [cleanup_peers_sums _ _ _ (fun q => q.active_out_connections)
                (fun q => rfl) (fun q hq => (is_active_false_fields hq).2.1) hips2]
              exact sumBy_updatePeer_eq _ _ hlk rfl
            have eI : sumBy (fun q => q.active_in_connections)
                (cleanup_peers db.cfg (updatePeer db.peers ip (fun _ =>
                  { p with
                    active_out_connection_attempts := p.active_out_connection_attempts - 1,
                    last_failure := some now })) none) =
                sumBy (fun q => q.active_in_connections) db.peers := by
              rw [cleanup_peers_sums _ _ _ (fun q => q.active_in_connections)
                (fun q => rfl) (fun q hq => (is_active_false_fields hq).2.2) hips2]
              exact sumBy_updatePeer_eq _ _ hlk rfl
            refine ⟨⟨?_, ?_, ?_⟩, ?_⟩
            · dsimp only
              omega
            · dsimp only
              omega
            · dsimp only
              omega
            · dsimp only [ipsOk]
              intro q hq
              exact cleanup_peers_key_ok _ _ _ q hq
          · simp only [Prod.mk.injEq] at h
            obtain ⟨-, h⟩ := h
            subst h
            have eO : sumBy (fun q => q.active_out_connections)
                (updatePeer db.peers ip (fun _ =>
                  { p with
                    active_out_connection_attempts := p.active_out_connection_attempts - 1,
                    last_failure := some now })) =
                sumBy (fun q => q.active_out_connections) db.peers :=
              sumBy_updatePeer_eq _ _ hlk rfl
            have eI : sumBy (fun q => q.active_in_connections)
                (updatePeer db.peers ip (fun _ =>
                  { p with
                    active_out_connection_attempts := p.active_out_connection_attempts - 1,
                    last_failure := some now })) =
                sumBy (fun q => q.active_in_connections) db.peers :=
              sumBy_updatePeer_eq _ _ hlk rfl
            refine ⟨⟨?_, ?_, ?_⟩, ?_⟩
            · dsimp only
              omega
            · dsimp only
              omega
            · dsimp only
              omega
            · exact hips2

theorem peer_banned_inv (db : PeerInfoDatabase) (ip : IpAddr) (nq : Option Nat) (u : Unit)
    (db2 : PeerInfoDatabase) (h : peer_banned db ip nq = (.ok u, db2))
    (h1 : aggOk db) (h2 : ipsOk db) : aggOk db2 ∧ ipsOk db2 := by
  simp only [peer_banned] at h
  split at h
  · simp only [Prod.mk.injEq] at h
    exact Except.noConfusion h.1
  · rename_i p hlk
    split at h
    · simp only [Prod.mk.injEq] at h
      exact Except.noConfusion h.1
    · rename_i now
      obtain ⟨a1, a2, a3⟩ := h1
      split at h
      · -- already banned: only last_failure is set
        simp only [Prod.mk.injEq] at h
        obtain ⟨-, h⟩ := h
        subst h
        refine ⟨⟨?_, ?_, ?_⟩, ?_⟩
        · rw [sumBy_updatePeer_eq _ _ hlk rfl]; exact a1
        · rw [sumBy_updatePeer_eq _ _ hlk rfl]; exact a2
        · rw [sumBy_updatePeer_eq _ _ hlk rfl]; exact a3
        · exact ipsOk_updatePeer hlk h2 rfl
      · have hips2 : ∀ q ∈ updatePeer db.peers ip (fun _ =>
            { p with last_failure := some now, banned := true }),
            key_ok db.cfg q = true := ipsOk_updatePeer hlk h2 rfl
        split at h
        · simp only [Prod.mk.injEq] at h
          obtain ⟨-, h⟩ := h
          subst h
          have eA : sumBy (fun q => q.active_out_connection_attempts)
              (cleanup_peers db.cfg (updatePeer db.peers ip (fun _ =>
                { p with last_failure := some now, banned := true })) none) =
              sumBy (fun q => q.active_out_connection_attempts) db.peers := by
            rw [cleanup_peers_sums _ _ _ (fun q => q.active_out_connection_attempts)
              (fun q => rfl) (fun q hq => (is_active_false_fields hq).1) hips2]
            exact sumBy_updatePeer_eq _ _ hlk rfl
          have eO : sumBy (fun q => q.active_out_connections)
              (cleanup_peers db.cfg (updatePeer db.peers ip (fun _ =>
                { p with last_failure := some now, banned := true })) none) =
              sumBy (fun q => q.active_out_connections) db.peers := by
            rw [cleanup_peers_sums _ _ _ (fun q => q.active_out_connections)
              (fun q => rfl) (fun q hq => (is_active_false_fields hq).2.1) hips2]
            exact sumBy_updatePeer_eq _ _ hlk rfl
          have eI : sumBy (fun q => q.active_in_connections)
              (cleanup_peers db.cfg (updatePeer db.peers ip (fun _ =>
                { p with last_failure := some now, banned := true })) none) =
              sumBy (fun q => q.active_in_connections) db.peers := by
            rw [cleanup_peers_sums _ _ _ (fun q => q.active_in_connections)
              (fun q => rfl) (fun q hq => (is_active_false_fields hq).2.2) hips2]
            exact sumBy_updatePeer_eq _ _ hlk rfl
          refine ⟨⟨?_, ?_, ?_⟩, ?_⟩
          · dsimp only
            omega
          · dsimp only
            omega
          · dsimp only
            omega
          · dsimp only [ipsOk]
            intro q hq
            exact cleanup_peers_key_ok _ _ _ q hq
        · simp only [Prod.mk.injEq] at h
          obtain ⟨-, h⟩ := h
          subst h
          refine ⟨⟨?_, ?_, ?_⟩, ?_⟩
          · rw [sumBy_updatePeer_eq _ _ hlk rfl]; exact a1
          · rw [sumBy_updatePeer_eq _ _ hlk rfl]; exact a2
          · rw [sumBy_updatePeer_eq _ _ hlk rfl]; exact a3
          · exact hips2

theorem merge_candidate_peers_inv (db : PeerInfoDatabase) (ips : List IpAddr) (u : Unit)
    (db2 : PeerInfoDatabase) (h : merge_candidate_peers db ips = (.ok u, db2))
    (h1 : aggOk db) (h2 : ipsOk db) : aggOk db2 ∧ ipsOk db2 := by
  simp only [merge_candidate_peers] at h
  split at h
  · simp only [Prod.mk.injEq] at h
    obtain ⟨-, h⟩ := h
    subst h
    exact ⟨h1, h2⟩
  · simp only [Prod.mk.injEq] at h
    obtain ⟨-, h⟩ := h
    subst h
    obtain ⟨a1, a2, a3⟩ := h1
    refine ⟨⟨?_, ?_, ?_⟩, ?_⟩
    · dsimp only
      rw [cleanup_peers_sums _ _ _ (fun q => q.active_out_connection_attempts)
        (fun q => rfl) (fun q hq => (is_active_false_fields hq).1) h2]
      exact a1
    · dsimp only
      rw [cleanup_peers_sums _ _ _ (fun q => q.active_out_connections)
        (fun q => rfl) (fun q hq => (is_active_false_fields hq).2.1) h2]
      exact a2
    · dsimp only
      rw [cleanup_peers_sums _ _ _ (fun q => q.active_in_connections)
        (fun q => rfl) (fun q hq => (is_active_false_fields hq).2.2) h2]
      exact a3
    · dsimp only [ipsOk]
      intro q hq
      exact cleanup_peers_key_ok _ _ _ q hq

theorem try_out_connection_attempt_success_inv (db : PeerInfoDatabase) (ip : IpAddr)
    (nq : Option Nat) (b : Bool) (db2 : PeerInfoDatabase)
    (h : try_out_connection_attempt_success db ip nq = (.ok b, db2))
    (h1 : aggOk db) (h2 : ipsOk db) : aggOk db2 ∧ ipsOk db2 := by
  simp only [try_out_connection_attempt_success] at h
  split at h
  · simp only [Prod.mk.injEq] at h
    exact Except.noConfusion h.1
  · rename_i hagg
    split at h
    · -- target reached: Ok(false), state unchanged
      simp only [Prod.mk.injEq] at h
      obtain ⟨-, h⟩ := h
      subst h
      exact ⟨h1, h2⟩
    · split at h
      · simp only [Prod.mk.injEq] at h
        exact Except.noConfusion h.1
      · rename_i p hlk
        split at h
        · simp only [Prod.mk.injEq] at h
          exact Except.noConfusion h.1
        · rename_i hpo
          have hp1 : 1 ≤ p.active_out_connection_attempts := Nat.pos_of_ne_zero hpo
          obtain ⟨a1, a2, a3⟩ := h1
          split at h
          · -- banned branch
            split at h
            · simp only [Prod.mk.injEq] at h
              exact Except.noConfusion h.1
            · rename_i now
              have hips2 : ∀ q ∈ updatePeer db.peers ip (fun _ =>
                  { p with
                    active_out_connection_attempts := p.active_out_connection_attempts - 1,
                    advertised := true, last_failure := some now }),
                  key_ok db.cfg q = true := ipsOk_updatePeer hlk h2 rfl
              have hsumA := sumBy_updatePeer (fun q => q.active_out_connection_attempts)
                (fun _ => { p with
                  active_out_connection_attempts := p.active_out_connection_attempts - 1,
                  advertised := true, last_failure := some now }) hlk
              dsimp only at hsumA
              split at h
              · simp only [Prod.mk.injEq] at h
                obtain ⟨-, h⟩ := h
                subst h
                have eA : sumBy (fun q => q.active_out_connection_attempts)
                    (cleanup_peers db.cfg (updatePeer db.peers ip (fun _ =>
                      { p with
                        active_out_connection_attempts :=
                          p.active_out_connection_attempts - 1,
                        advertised := true, last_failure := some now })) none) + 1 =
                    sumBy (fun q => q.active_out_connection_attempts) db.peers := by
                  rw [cleanup_peers_sums _ _ _ (fun q => q.active_out_connection_attempts)
                    (fun q => rfl) (fun q hq => (is_active_false_fields hq).1) hips2]
                  omega
                have eO : sumBy (fun q => q.active_out_connections)
                    (cleanup_peers db.cfg (updatePeer db.peers ip (fun _ =>
                      { p with
                        active_out_connection_attempts :=
                          p.active_out_connection_attempts - 1,
                        advertised := true, last_failure := some now })) none) =
                    sumBy (fun q => q.active_out_connections) db.peers := by
                  rw [cleanup_peers_sums _ _ _ (fun q => q.active_out_connections)
                    (fun q => rfl) (fun q hq => (is_active_false_fields hq).2.1) hips2]
                  exact sumBy_updatePeer_eq _ _ hlk rfl
                have eI : sumBy (fun q => q.active_in_connections)
                    (cleanup_peers db.cfg (updatePeer db.peers ip (fun _ =>
                      { p with
                        active_out_connection_attempts :=
                          p.active_out_connection_attempts - 1,
                        advertised := true, last_failure := some now })) none) =
                    sumBy (fun q => q.active_in_connections) db.peers := by
                  rw [cleanup_peers_sums _ _ _ (fun q => q.active_in_connections)
                    (fun q => rfl) (fun q hq => (is_active_false_fields hq).2.2) hips2]
                  exact sumBy_updatePeer_eq _ _ hlk rfl
                refine ⟨⟨?_, ?_, ?_⟩, ?_⟩
                · dsimp only
                  omega
                · dsimp only
                  omega
                · dsimp only
                  omega
                · dsimp only [ipsOk]
                  intro q hq
                  exact cleanup_peers_key_ok _ _ _ q hq
              · simp only [Prod.mk.injEq] at h
                obtain ⟨-, h⟩ := h
                subst h
                have eO : sumBy (fun q => q.active_out_connections)
                    (updatePeer db.peers ip (fun _ =>
                      { p with
                        active_out_connection_attempts :=
                          p.active_out_connection_attempts - 1,
                        advertised := true, last_failure := some now })) =
                    sumBy (fun q => q.active_out_connections) db.peers :=
                  sumBy_updatePeer_eq _ _ hlk rfl
                have eI : sumBy (fun q => q.active_in_connections)
                    (updatePeer db.peers ip (fun _ =>
                      { p with
                        active_out_connection_attempts :=
                          p.active_out_connection_attempts - 1,
                        advertised := true, last_failure := some now })) =
                    sumBy (fun q => q.active_in_connections) db.peers :=
                  sumBy_updatePeer_eq _ _ hlk rfl
                refine ⟨⟨?_, ?_, ?_⟩, ?_⟩
                · dsimp only
                  omega
                · dsimp only
                  omega
                · dsimp only
                  omega
                · exact hips2
          · -- success branch: attempt becomes an established out connection
            simp only [Prod.mk.injEq] at h
            obtain ⟨-, h⟩ := h
            subst h
            have hsumA := sumBy_updatePeer (fun q => q.active_out_connection_attempts)
              (fun q => { q with
                active_out_connection_attempts := q.active_out_connection_attempts - 1,
                advertised := true,
                active_out_connections := q.active_out_connections + 1 }) hlk
            have hsumO := sumBy_updatePeer (fun q => q.active_out_connections)
              (fun q => { q with
                active_out_connection_attempts := q.active_out_connection_attempts - 1,
                advertised := true,
                active_out_connections := q.active_out_connections + 1 }) hlk
            dsimp only at hsumA hsumO
            refine ⟨⟨?_, ?_, ?_⟩, ?_⟩
            · dsimp only
              omega
            · dsimp only
              omega
            · dsimp only
              rw [sumBy_updatePeer_eq _ _ hlk rfl]
              exact a3
            · exact ipsOk_updatePeer hlk h2 rfl

theorem sumBy_append_single (g : PeerInfo → Nat) (l : List PeerInfo) (x : PeerInfo) :
    sumBy g (l ++ [x]) = sumBy g l + g x := by
  rw [sumBy_append, sumBy_cons, sumBy_nil]
  omega

theorem try_new_in_connection_inv (db : PeerInfoDatabase) (ip : IpAddr) (nq : Option Nat)
    (b : Bool) (db2 : PeerInfoDatabase)
    (h : try_new_in_connection db ip nq = (.ok b, db2))
    (h1 : aggOk db) (h2 : ipsOk db) : aggOk db2 ∧ ipsOk db2 := by
  simp only [try_new_in_connection] at h
  split at h
  · simp only [Prod.mk.injEq] at h
    obtain ⟨-, h⟩ := h
    subst h
    exact ⟨h1, h2⟩
  · rename_i hc1
    split at h
    · simp only [Prod.mk.injEq] at h
      obtain ⟨-, h⟩ := h
      subst h
      exact ⟨h1, h2⟩
    · rename_i hc2
      have hglob : ip.is_global = true := by
        cases hgi : ip.is_global with
        | true => rfl
        | false =>
          exact absurd (by simp [hgi]) hc1
      have hfkey : key_ok db.cfg (new_in_peer ip) = true := by
        simp [key_ok, new_in_peer, hglob, hc2]
      have hl0 : ∀ q ∈ db.peers ++ [new_in_peer ip], key_ok db.cfg q = true := by
        intro q hq
        rcases List.mem_append.mp hq with hq | hq
        · exact h2 q hq
        · rw [List.mem_singleton.mp hq]
          exact hfkey
      obtain ⟨a1, a2, a3⟩ := h1
      split at h
      · -- banned: refuse and record the failure
        rename_i hban
        split at h
        · simp only [Prod.mk.injEq] at h
          exact Except.noConfusion h.1
        · rename_i now
          split at h
          · rename_i hsome
            obtain ⟨p, hp⟩ := Option.isSome_iff_exists.mp hsome
            simp only [Prod.mk.injEq] at h
            obtain ⟨-, h⟩ := h
            subst h
            refine ⟨⟨?_, ?_, ?_⟩, ?_⟩
            · rw [sumBy_updatePeer_eq _ _ hp rfl]; exact a1
            · rw [sumBy_updatePeer_eq _ _ hp rfl]; exact a2
            · rw [sumBy_updatePeer_eq _ _ hp rfl]; exact a3
            · exact ipsOk_updatePeer hp h2 rfl
          · rename_i hnsome
            have hlk : lookupPeer db.peers ip = none :=
              Option.not_isSome_iff_eq_none.mp (by simp [hnsome])
            rw [hlk] at hban
            simp [new_in_peer] at hban
      · rename_i hnban
        split at h
        · -- per-IP cap reached: refuse
          split at h
          · simp only [Prod.mk.injEq] at h
            obtain ⟨-, h⟩ := h
            subst h
            exact ⟨⟨a1, a2, a3⟩, h2⟩
          · simp only [Prod.mk.injEq] at h
            obtain ⟨-, h⟩ := h
            subst h
            refine ⟨⟨?_, ?_, ?_⟩, ?_⟩
            · dsimp only
              rw [sumBy_append_single]
              dsimp only [new_in_peer]
              omega
            · dsimp only
              rw [sumBy_append_single]
              dsimp only [new_in_peer]
              omega
            · dsimp only
              rw [sumBy_append_single]
              dsimp only [new_in_peer]
              omega
            · exact hl0
        · -- accept: increment inbound on record and aggregate
          split at h
          · rename_i hsome
            obtain ⟨p, hp⟩ := Option.isSome_iff_exists.mp hsome
            simp only [Prod.mk.injEq] at h
            obtain ⟨-, h⟩ := h
            subst h
            have hsumI := sumBy_updatePeer (fun q => q.active_in_connections)
              (fun q => { q with active_in_connections := q.active_in_connections + 1 }) hp
            dsimp only at hsumI
            refine ⟨⟨?_, ?_, ?_⟩, ?_⟩
            · dsimp only
              rw [sumBy_updatePeer_eq _ _ hp rfl]
              exact a1
            · dsimp only
              rw [sumBy_updatePeer_eq _ _ hp rfl]
              exact a2
            · dsimp only
              omega
            · exact ipsOk_updatePeer hp h2 rfl
          · rename_i hnsome
            have hlk : lookupPeer db.peers ip = none :=
              Option.not_isSome_iff_eq_none.mp (by simp [hnsome])
            have hlk2 : lookupPeer (db.peers ++ [new_in_peer ip]) ip =
                some (new_in_peer ip) := lookupPeer_append_none hlk rfl
            simp only [Prod.mk.injEq] at h
            obtain ⟨-, h⟩ := h
            subst h
            have hsumI := sumBy_updatePeer (fun q => q.active_in_connections)
              (fun q => { q with active_in_connections := q.active_in_connections + 1 }) hlk2
            dsimp only at hsumI
            have happ := sumBy_append_single (fun q => q.active_in_connections) db.peers
              (new_in_peer ip)
            refine ⟨⟨?_, ?_, ?_⟩, ?_⟩
            · dsimp only
              rw [sumBy_updatePeer_eq _ _ hlk2 rfl, sumBy_append_single]
              dsimp only [new_in_peer]
              omega
            · dsimp only
              rw [sumBy_updatePeer_eq _ _ hlk2 rfl, sumBy_append_single]
              dsimp only [new_in_peer]
              omega
            · dsimp only
              dsimp only [new_in_peer] at hsumI happ ⊢
              omega
            · exact ipsOk_updatePeer hlk2 hl0 rfl

theorem apiStep_inv (db : PeerInfoDatabase) (c : ApiCall) (nq : Option Nat) (u : Unit)
    (db2 : PeerInfoDatabase) (h : apiStep db c nq = (.ok u, db2))
    (h1 : aggOk db) (h2 : ipsOk db) : aggOk db2 ∧ ipsOk db2 := by
  cases c with
  | newOutAttempt ip => exact new_out_connection_attempt_inv db ip u db2 h h1 h2
  | tryOutSuccess ip =>
    simp only [apiStep, Prod.mk.injEq] at h
    obtain ⟨hm, hs⟩ := h
    cases hr : (try_out_connection_attempt_success db ip nq).1 with
    | error e => rw [hr] at hm; exact Except.noConfusion hm
    | ok bb =>
      have hpair : try_out_connection_attempt_success db ip nq = (.ok bb, db2) := by
        rw [← hs, ← hr]
      exact try_out_connection_attempt_success_inv db ip nq bb db2 hpair h1 h2
  | outAttemptFailed ip => exact out_connection_attempt_failed_inv db ip nq u db2 h h1 h2
  | outClosed ip => exact out_connection_closed_inv db ip u db2 h h1 h2
  | inClosed ip => exact in_connection_closed_inv db ip u db2 h h1 h2
  | tryNewIn ip =>
    simp only [apiStep, Prod.mk.injEq] at h
    obtain ⟨hm, hs⟩ := h
    cases hr : (try_new_in_connection db ip nq).1 with
    | error e => rw [hr] at hm; exact Except.noConfusion hm
    | ok bb =>
      have hpair : try_new_in_connection db ip nq = (.ok bb, db2) := by
        rw [← hs, ← hr]
      exact try_new_in_connection_inv db ip nq bb db2 hpair h1 h2
  | peerAliveCall ip => exact peer_alive_inv db ip nq u db2 h h1 h2
  | peerFailedCall ip => exact peer_failed_inv db ip nq u db2 h h1 h2
  | peerBannedCall ip => exact peer_banned_inv db ip nq u db2 h h1 h2
  | mergeCandidates ips => exact merge_candidate_peers_inv db ips u db2 h h1 h2

theorem runOk_inv (seq : List (ApiCall × Option Nat)) :
    ∀ db db2, aggOk db → ipsOk db → runOk db seq = some db2 → aggOk db2 ∧ ipsOk db2 := by
  induction seq with
  | nil =>
    intro db db2 h1 h2 h
    simp only [runOk, Option.some.injEq] at h
    subst h
    exact ⟨h1, h2⟩
  | cons cn rest ih =>
    intro db db2 h1 h2 h
    obtain ⟨c, nqv⟩ := cn
    simp only [runOk] at h
    split at h
    · rename_i u dbm heq
      have hmid := apiStep_inv db c nqv u dbm heq h1 h2
      exact ih dbm db2 hmid.1 hmid.2 h
    · exact Option.noConfusion h

def ip99 : IpAddr := ⟨169, 202, 0, 99⟩

/-- An active record sitting at a non-global IP: its counters are real, but the cleanup
drain loop drops it regardless of activity. -/
def c1_bad_peer : PeerInfo :=
  { ip := ip192, banned := false, bootstrap := false, last_alive := none, last_failure := none,
    advertised := false, active_out_connection_attempts := 0, active_out_connections := 1,
    active_in_connections := 0 }

def c1_bad_db : PeerInfoDatabase :=
  { cfg := example_config, peers := [c1_bad_peer], active_out_connection_attempts := 0,
    active_out_connections := 1, active_in_connections := 0, wakeup_interval := 10000 }

/-- Claim C1 counterexample: starting from a state where every aggregate equals the sum of
the per-record counters (the claim's only precondition), a single successful
`merge_candidate_peers` call breaks the equality: the cleanup drain drops the ACTIVE
record at the non-global IP `192.168.0.11` without touching the aggregate, so the
aggregate `active_out_connections` (1) no longer equals the per-record sum (0). -/
theorem aggregate_invariant_broken_by_merge :
    aggOk c1_bad_db ∧
      runOk c1_bad_db [(.mergeCandidates [ip99], some 0)] =
        some { c1_bad_db with peers := [new_cleanup_peer ip99] } ∧
      ¬ aggOk { c1_bad_db with peers := [new_cleanup_peer ip99] } :=
  ⟨by decide, by decide, by decide⟩

/-- Claim C1 (amended): for every sequence of PublicAPI calls, each of which returns
without error, starting from a state in which every aggregate counter equals the sum of
the corresponding per-record counter (I1) AND every record's IP is globally routable and
distinct from the configured routable IP (I5/I6 — without which cleanup can drop an
active record, see the counterexample), after every call each aggregate counter again
equals the sum of that counter over all records.  Quantifying over all sequences covers
every prefix of a run, hence the invariant after each individual call. -/
theorem api_preserves_aggregate_sums (db : PeerInfoDatabase)
    (seq : List (ApiCall × Option Nat)) (db2 : PeerInfoDatabase)
    (h1 : aggOk db) (h2 : ipsOk db) (h : runOk db seq = some db2) : aggOk db2 :=
  (runOk_inv seq db db2 h1 h2 h).1

/-- Witness database for C1: one global banned record, zero counters. -/
def c1w_db : PeerInfoDatabase :=
  { cfg := example_config,
    peers := [{ base_peer ip11 with banned := true, bootstrap := false }],
    active_out_connection_attempts := 0, active_out_connections := 0,
    active_in_connections := 0, wakeup_interval := 10000 }

def c1w_db2 : PeerInfoDatabase :=
  { cfg := example_config,
    peers := [{ base_peer ip11 with
      banned := true
      bootstrap := false
      active_out_connection_attempts := 1 }],
    active_out_connection_attempts := 1, active_out_connections := 0,
    active_in_connections := 0, wakeup_interval := 10000 }

/-- Witness for the amended C1: one successful `new_out_connection_attempt` call from a
state satisfying I1, I5 and I6 ends in a state satisfying I1. -/
theorem api_preserves_aggregate_sums_witness :
    aggOk c1w_db ∧ ipsOk c1w_db ∧
      runOk c1w_db [(.newOutAttempt ip11, some 0)] = some c1w_db2 ∧ aggOk c1w_db2 :=
  ⟨by decide, by decide, by decide,
    api_preserves_aggregate_sums c1w_db [(.newOutAttempt ip11, some 0)] c1w_db2
      (by decide) (by decide) (by decide)⟩
